import Mathlib

/-!
# Verification development for the Doris BE load path

Shallow embedding of

* `be/src/vec/sink/vtablet_sink_v2.h` (`TabletKey`, `TabletKeyHash`, `TabletID`,
  `DeltaWriterForTablet`, `StreamSinkHandler`),
* `be/src/runtime/load_stream_mgr.h` (`LoadStreamMgr`),
* `be/src/vec/json/parse2column.cpp` (`parse_json_to_variant`, single row and batch, and
  `SimpleObjectPool`),
* `be/src/vec/data_types/serde/data_type_ipv6_serde.cpp` (`_write_column_to_mysql`).

Machine integers are mathematical integers with explicit wrap-around modulo `2^64`.
-/

namespace doris

/-! ## `std::unordered_map` -/

/-- A `std::unordered_map<K, V>`: a finite table of entries looked up by key. -/
abbrev unordered_map (K V : Type) := List (K × V)

/-- The member `find`: the value stored under `k`, if any. -/
def unordered_map.find {K V : Type} [DecidableEq K] (m : unordered_map K V) (k : K) :
    Option V :=
  (List.find? (fun e => decide (e.1 = k)) m).map (fun e => e.2)

/-- The member `erase(key)`: removes what is stored under `k`; total, no effect when `k` is
absent. -/
def unordered_map.erase {K V : Type} [DecidableEq K] (m : unordered_map K V) (k : K) :
    unordered_map K V :=
  List.filter (fun e => !decide (e.1 = k)) m

/-! ## `vtablet_sink_v2.h`: tablet keys -/

namespace stream_load

/-- The struct `TabletKey` (vtablet_sink_v2.h:118-123); the three fields are `int64_t`. -/
structure TabletKey where
  partition_id : Int
  index_id : Int
  tablet_id : Int
  deriving Repr

/-- The defaulted `operator==` of `TabletKey` (vtablet_sink_v2.h:122): member-wise comparison
in declaration order. -/
def TabletKey.eq (a b : TabletKey) : Bool :=
  decide (a.partition_id = b.partition_id) && decide (a.index_id = b.index_id) &&
    decide (a.tablet_id = b.tablet_id)

/-- Wrap a mathematical integer into the range of `int64_t` (two's complement). -/
def wrap_int64 (x : Int) : Int := (x + 2 ^ 63) % 2 ^ 64 - 2 ^ 63

/-- The operator `<<` on `int64_t` (C++20, which the defaulted `operator==` requires): the
`int64_t` value congruent to `x * 2^n` modulo `2^64`. -/
def shl_int64 (x : Int) (n : Nat) : Int := wrap_int64 (x * 2 ^ n)

/-- The operator `^` on `int64_t`: bitwise exclusive or of the two's complement
representations.  It cannot overflow. -/
def xor_int64 (a b : Int) : Int := Int.xor a b

/-- Conversion of an `int64_t` to `std::size_t` (64 bits): reduction modulo `2^64`. -/
def to_size_t (x : Int) : Nat := (x % 2 ^ 64).toNat

/-- The functor `TabletKeyHash::operator()` (vtablet_sink_v2.h:125-129):
`return (k.partition_id << 2) ^ (k.index_id << 1) ^ (k.tablet_id);` -/
def TabletKeyHash (k : TabletKey) : Nat :=
  to_size_t (xor_int64 (xor_int64 (shl_int64 k.partition_id 2) (shl_int64 k.index_id 1))
    k.tablet_id)

/-- The hash as the specification words it: shifts and exclusive or on unbounded integers,
the result taken modulo `2^64`. -/
def TabletKeyHash_spec (k : TabletKey) : Nat :=
  ((Int.xor (Int.xor (k.partition_id <<< (2 : Int)) (k.index_id <<< (1 : Int))) k.tablet_id)
    % 2 ^ 64).toNat

/-! ## `vtablet_sink_v2.h`: the writer registry and the stream handler -/

/-- The forward-declared class `DeltaWriter`; a writer is identified by its allocation. -/
structure DeltaWriter where
  id : Nat
  deriving DecidableEq, Repr

/-- The alias `using TabletID = std::pair<int64_t, int64_t>;` documented as
`<tablet_id, index_id>` (vtablet_sink_v2.h:97-98). -/
abbrev TabletID := Int × Int

/-- The alias `DeltaWriterForTablet = std::unordered_map<TabletID, std::unique_ptr<DeltaWriter>>`
(vtablet_sink_v2.h:99). -/
abbrev DeltaWriterForTablet := unordered_map TabletID DeltaWriter

/-- The range of `int64_t`. -/
def is_int64 (x : Int) : Prop := -(2 : Int) ^ 63 ≤ x ∧ x < (2 : Int) ^ 63

/-- A `TabletKey` as the struct can hold it: three `int64_t` values. -/
def TabletKey.in_range (k : TabletKey) : Prop :=
  is_int64 k.partition_id ∧ is_int64 k.index_id ∧ is_int64 k.tablet_id

/-- A `TabletID` as the pair can hold it: two `int64_t` values. -/
def TabletID_in_range (t : TabletID) : Prop := is_int64 t.1 ∧ is_int64 t.2

/-- A `brpc::StreamId`. -/
abbrev StreamId := Nat

/-- The alias `StreamPool = std::vector<brpc::StreamId>` (vtablet_sink_v2.h:100). -/
abbrev StreamPool := List StreamId

/-- The alias `StreamPoolForNode = std::unordered_map<int64_t, StreamPool>`
(vtablet_sink_v2.h:101). -/
abbrev StreamPoolForNode := unordered_map Int StreamPool

/-- The mutable members of `VOlapTableSinkV2` that a `StreamSinkHandler` reaches through its
`_sink` pointer (it is a friend class): stream pools, writer registry, outcome maps and
counters (vtablet_sink_v2.h:243-315). -/
structure VOlapTableSinkV2 where
  _stream_pool_for_node : StreamPoolForNode
  _stream_pool_index : Nat
  _delta_writer_for_tablet : DeltaWriterForTablet
  _flying_task_count : Int
  _flying_memtable_count : Int
  _opened_tablets : List TabletID
  _tablet_success_map : unordered_map TabletID (List Int)
  _tablet_failure_map : unordered_map TabletID (List Int)
  _number_input_rows : Int
  _number_output_rows : Int
  _number_filtered_rows : Int
  deriving Repr

/-- What a stream callback can act on: the sink behind `_sink` and the transport's record of
which streams have been closed. -/
structure SinkWorld where
  sink : VOlapTableSinkV2
  closed_streams : List StreamId
  deriving Repr

/-- The override `void on_idle_timeout(brpc::StreamId id) override {}`
(vtablet_sink_v2.h:110): the body is empty. -/
def StreamSinkHandler.on_idle_timeout (_id : StreamId) (w : SinkWorld) : SinkWorld := w

end stream_load

/-! ## `load_stream_mgr.h` -/

/-- The enum `ThreadPool::ExecutionMode`. -/
inductive ExecutionMode
  | SERIAL
  | CONCURRENT
  deriving DecidableEq, Repr

/-- A `ThreadPoolToken`: the pool it belongs to, its execution mode, and which allocation of
that pool it is. -/
structure ThreadPoolToken where
  pool_id : Nat
  mode : ExecutionMode
  serial : Nat
  deriving DecidableEq, Repr

/-- A `ThreadPool`: its identity and the number of tokens it has allocated so far. -/
structure ThreadPool where
  pool_id : Nat
  tokens_allocated : Nat
  deriving DecidableEq, Repr

/-- Modelled from the spec: `ThreadPool::new_token(ExecutionMode)` is declared in
`util/threadpool.h`, which is not among the sources.  It hands out "a newly allocated ...
execution token" of the pool with the requested mode: here the next allocation of the pool. -/
def ThreadPool.new_token (p : ThreadPool) (mode : ExecutionMode) :
    ThreadPoolToken × ThreadPool :=
  ({ pool_id := p.pool_id, mode := mode, serial := p.tokens_allocated },
   { p with tokens_allocated := p.tokens_allocated + 1 })

/-- A `UniqueId`: a 128-bit load id as two `int64_t` halves. -/
structure UniqueId where
  hi : Int
  lo : Int
  deriving DecidableEq, Repr

/-- Modelled from the spec: `LoadStream` is declared in `runtime/load_stream.h`, which is not
among the sources.  A load session has "identity = (load_id: 128-bit unique id, txn_id: int64)"
and owns "a dedicated worker-thread token per load". -/
structure LoadStream where
  load_id : UniqueId
  txn_id : Int
  token : ThreadPoolToken
  deriving DecidableEq, Repr

/-- The class `LoadStreamMgr` (load_stream_mgr.h:35-50): the map of load streams and the
segment-file-writer thread pool (the lock has no value). -/
structure LoadStreamMgr where
  _load_streams_map : unordered_map UniqueId LoadStream
  _file_writer_thread_pool : ThreadPool
  deriving Repr

/-- The member `LoadStreamMgr::new_token` (load_stream_mgr.h:42-44):
`return _file_writer_thread_pool->new_token(ThreadPool::ExecutionMode::SERIAL);` -/
def LoadStreamMgr.new_token (m : LoadStreamMgr) : ThreadPoolToken × LoadStreamMgr :=
  let r := m._file_writer_thread_pool.new_token ExecutionMode.SERIAL
  (r.1, { m with _file_writer_thread_pool := r.2 })

/-- Modelled from the spec: `LoadStreamMgr::clear_load` is declared at load_stream_mgr.h:41 and
defined in `load_stream_mgr.cpp`, which is not among the sources.  "`clear_load(load_id)`:
removes the session and releases its token"; "clearing an already-cleared load id is a no-op,
not an error".  The token is owned by the session and goes with it. -/
def LoadStreamMgr.clear_load (m : LoadStreamMgr) (loadid : UniqueId) : LoadStreamMgr :=
  { m with _load_streams_map := unordered_map.erase m._load_streams_map loadid }

/-! ## `parse2column.cpp` -/

namespace vectorized

/-- The error codes of `common/status.h` that this file uses. -/
inductive ErrorCode
  | OK
  | INVALID_ARGUMENT
  | INTERNAL_ERROR
  | ABORTED
  deriving DecidableEq, Repr

/-- A `doris::Exception`: an error code and a message. -/
structure Exception where
  code : ErrorCode
  msg : String
  deriving DecidableEq, Repr

/-- The `Status` values the batch function returns: `Status::OK()` and
`Status::Aborted("Too many filtered rows {}, {}", parse_failed, raw_json_column.size())`, the
latter kept with the two numbers that are formatted into its message. -/
inductive Status
  | OK
  | Aborted (parse_failed : Int) (size : Nat)
  deriving DecidableEq, Repr

/-- How a call ends: it returns, it throws a `doris::Exception`, or an `assert` fails.
Assertions are taken as written: a failed `assert` ends the call and is not caught. -/
inductive Outcome (α : Type)
  | returned (a : α)
  | threw (e : Exception)
  | assert_failed
  deriving DecidableEq, Repr

/-- Whether a call returned. -/
def Outcome.is_returned {α : Type} : Outcome α → Bool
  | Outcome.returned _ => true
  | Outcome.threw _ => false
  | Outcome.assert_failed => false

/-- A `PathInData`, of which this file uses `get_path()` and its use as a subcolumn key. -/
structure PathInData where
  path : String
  deriving DecidableEq, Repr

/-- The accessor `PathInData::get_path`. -/
def PathInData.get_path (p : PathInData) : String := p.path

/-- A `ParseResult`: the parallel vectors `paths` and `values`
(`auto& [paths, values] = *result;`, parse2column.cpp:150). -/
structure ParseResult (Field : Type) where
  paths : List PathInData
  values : List Field

/-- The parser `JSONDataParser<ParserImpl>`, declared in `vec/json/json_parser.h` outside the
sources: a parameter, of which `parse(src, length)` is used. -/
structure JSONDataParser (Field : Type) where
  parse : String → Option (ParseResult Field)

/-- A `ColumnObject::Subcolumn`: its values, `none` standing for a default value. -/
structure Subcolumn (Field : Type) where
  data : List (Option Field)
  deriving DecidableEq, Repr

/-- The constructor `Subcolumn(new_size, is_nullable)`: `new_size` default values. -/
def Subcolumn.with_size (Field : Type) (new_size : Nat) : Subcolumn Field :=
  ⟨List.replicate new_size none⟩

/-- The member `Subcolumn::size`. -/
def Subcolumn.size {Field : Type} (s : Subcolumn Field) : Nat := s.data.length

/-- The member `Subcolumn::insert(field, info)`: appends the value. -/
def Subcolumn.insert {Field : Type} (s : Subcolumn Field) (v : Field) : Subcolumn Field :=
  ⟨s.data ++ [some v]⟩

/-- The member `Subcolumn::insertDefault`: appends one default value. -/
def Subcolumn.insertDefault {Field : Type} (s : Subcolumn Field) : Subcolumn Field :=
  ⟨s.data ++ [none]⟩

/-- A node of `ColumnObject::Subcolumns`: `entry->path` and `entry->data`. -/
structure Entry (Field : Type) where
  path : PathInData
  data : Subcolumn Field
  deriving DecidableEq, Repr

/-- A `ColumnObject` as this file uses it: its subcolumns and its row count. -/
structure ColumnObject (Field : Type) where
  subcolumns : List (Entry Field)
  num_rows : Nat
  deriving DecidableEq, Repr

/-- The member `ColumnObject::size`: the row count. -/
def ColumnObject.size {Field : Type} (c : ColumnObject Field) : Nat := c.num_rows

/-- The member `ColumnObject::has_subcolumn`. -/
def ColumnObject.has_subcolumn {Field : Type} (c : ColumnObject Field) (p : PathInData) : Bool :=
  c.subcolumns.any (fun e => decide (e.path = p))

/-- The member `ColumnObject::add_sub_column(key, new_size)`: a new subcolumn of `new_size`
default values under `key`. -/
def ColumnObject.add_sub_column {Field : Type} (c : ColumnObject Field) (p : PathInData)
    (new_size : Nat) : ColumnObject Field :=
  { c with subcolumns := c.subcolumns ++ [⟨p, Subcolumn.with_size Field new_size⟩] }

/-- The member `ColumnObject::get_subcolumn`: the subcolumn under `key`, or null. -/
def ColumnObject.get_subcolumn {Field : Type} (c : ColumnObject Field) (p : PathInData) :
    Option (Subcolumn Field) :=
  (c.subcolumns.find? (fun e => decide (e.path = p))).map (fun e => e.data)

/-- Replace the data of the first node stored under `p`. -/
def store_subcolumn {Field : Type} (p : PathInData) (s : Subcolumn Field) :
    List (Entry Field) → List (Entry Field)
  | [] => []
  | e :: rest => if e.path = p then ⟨e.path, s⟩ :: rest else e :: store_subcolumn p s rest

/-- A write through the pointer that `get_subcolumn` returned. -/
def ColumnObject.set_subcolumn {Field : Type} (c : ColumnObject Field) (p : PathInData)
    (s : Subcolumn Field) : ColumnObject Field :=
  { c with subcolumns := store_subcolumn p s c.subcolumns }

/-- The member `ColumnObject::incr_num_rows`. -/
def ColumnObject.incr_num_rows {Field : Type} (c : ColumnObject Field) : ColumnObject Field :=
  { c with num_rows := c.num_rows + 1 }

/-- The state of the loop at parse2column.cpp:154-177: the set of paths seen, the column, and
how the loop ended. -/
structure InsertState (Field : Type) where
  paths_set : List String
  column : ColumnObject Field
  outcome : Outcome Unit

/-- The loop at parse2column.cpp:154-177 over `paths[i]`, `values[i]`.  `is_nothing v` stands
for `is_nothing(field_info.scalar_type)` after `get_field_info(v, &field_info)`; both are
declared outside the sources. -/
def insert_values {Field : Type} (is_nothing : Field → Bool) (num_rows : Nat) :
    List (PathInData × Field) → List String → ColumnObject Field → InsertState Field
  | [], paths_set, column => ⟨paths_set, column, Outcome.returned ()⟩
  | (path, value) :: rest, paths_set, column =>
    if is_nothing value then
      insert_values is_nothing num_rows rest paths_set column
    else if path.get_path ∈ paths_set then
      ⟨paths_set, column,
        Outcome.threw ⟨ErrorCode.INVALID_ARGUMENT, "Object has ambiguous path " ++ path.get_path⟩⟩
    else
      let paths_set1 := path.get_path :: paths_set
      let column1 :=
        if column.has_subcolumn path then column else column.add_sub_column path num_rows
      match column1.get_subcolumn path with
      | none =>
        ⟨paths_set1, column1,
          Outcome.threw ⟨ErrorCode.INVALID_ARGUMENT, "Failed to find sub column " ++ path.get_path⟩⟩
      | some subcolumn =>
        if subcolumn.size = num_rows then
          insert_values is_nothing num_rows rest paths_set1
            (column1.set_subcolumn path (subcolumn.insert value))
        else
          ⟨paths_set1, column1, Outcome.assert_failed⟩

/-- The loop at parse2column.cpp:179-184: a default value for every subcolumn whose path is not
in `paths_set`. -/
def insert_defaults {Field : Type} (paths_set : List String) (c : ColumnObject Field) :
    ColumnObject Field :=
  { c with subcolumns := c.subcolumns.map (fun entry =>
      if entry.path.get_path ∈ paths_set then entry else ⟨entry.path, entry.data.insertDefault⟩) }

/-- What a single-row call leaves behind: the column and how the call ended. -/
structure RowResult (Field : Type) where
  column : ColumnObject Field
  outcome : Outcome Unit

/-- The template `parse_json_to_variant<ParserImpl>(column, src, length, parser)`
(parse2column.cpp:133-186), for one row; `length` is the length of `src`. -/
def parse_json_to_variant {Field : Type} (parser : JSONDataParser Field)
    (is_nothing : Field → Bool) (column : ColumnObject Field) (src : String) :
    RowResult Field :=
  let result : Option (ParseResult Field) :=
    if src.length > 0 then parser.parse src else some ⟨[], []⟩
  match result with
  | none =>
    ⟨column, Outcome.threw ⟨ErrorCode.INVALID_ARGUMENT, "Failed to parse object " ++ src⟩⟩
  | some r =>
    if r.paths.length = r.values.length then
      let num_rows := column.size
      let st := insert_values is_nothing num_rows (List.zip r.paths r.values) [] column
      match st.outcome with
      | Outcome.returned _ => ⟨(insert_defaults st.paths_set st.column).incr_num_rows,
          Outcome.returned ()⟩
      | Outcome.threw e => ⟨st.column, Outcome.threw e⟩
      | Outcome.assert_failed => ⟨st.column, Outcome.assert_failed⟩
    else
      ⟨column, Outcome.assert_failed⟩

/-- What the batch call leaves behind: the column, the filter, the local `parse_failed` as it
is when the function is left, and how the call ended. -/
structure BatchResult (Field : Type) where
  column : ColumnObject Field
  filter : List Nat
  parse_failed : Int
  result : Outcome Status

/-- The loop of the batch function (parse2column.cpp:192-206) from row `i` on, `size` being
`raw_json_column.size()`.  The threshold, a finite `double`, is the rational it denotes, and
`static_cast<double>(parse_failed) / raw_json_column.size()` is the exact quotient; for
`parse_failed = 0` the `double` quotient is exactly 0 as well.  `filter[i] = v` is
`filter.set i v`, the filter being at least as long as the column. -/
def parse_rows {Field : Type} (parser : JSONDataParser Field) (is_nothing : Field → Bool)
    (size : Nat) (max_filter_ratio : ℚ) :
    Nat → List String → ColumnObject Field → List Nat → Int → BatchResult Field
  | _, [], column, filter, parse_failed =>
    ⟨column, filter, parse_failed, Outcome.returned Status.OK⟩
  | i, raw_json :: rest, column, filter, parse_failed =>
    let r := parse_json_to_variant parser is_nothing column raw_json
    match r.outcome with
    | Outcome.returned _ =>
      parse_rows parser is_nothing size max_filter_ratio (i + 1) rest r.column
        (filter.set i 1) parse_failed
    | Outcome.threw e =>
      let failed_ratio : ℚ := (parse_failed : ℚ) / (size : ℚ)
      if e.code = ErrorCode.INVALID_ARGUMENT ∧ failed_ratio < max_filter_ratio then
        parse_rows parser is_nothing size max_filter_ratio (i + 1) rest r.column
          (filter.set i 0) parse_failed
      else
        ⟨r.column, filter, parse_failed,
          Outcome.returned (Status.Aborted parse_failed size)⟩
    | Outcome.assert_failed => ⟨r.column, filter, parse_failed, Outcome.assert_failed⟩

/-- The batch function `parse_json_to_variant(column, raw_json_column, max_filter_ratio,
filter)` (parse2column.cpp:188-208): `int32_t parse_failed = 0;` and the loop over the rows. -/
def parse_json_to_variant_batch {Field : Type} (parser : JSONDataParser Field)
    (is_nothing : Field → Bool) (column : ColumnObject Field) (raw_json_column : List String)
    (max_filter_ratio : ℚ) (filter : List Nat) : BatchResult Field :=
  parse_rows parser is_nothing raw_json_column.length max_filter_ratio 0 raw_json_column
    column filter 0

/-- The column as row `i` of a batch finds it: what the single-row calls on the rows before
it have left. -/
def column_before {Field : Type} (parser : JSONDataParser Field) (is_nothing : Field → Bool)
    (column : ColumnObject Field) (raw_json_column : List String) (i : Nat) :
    ColumnObject Field :=
  (raw_json_column.take i).foldl
    (fun c src => (parse_json_to_variant parser is_nothing c src).column) column

/-- Whether row `i` of a batch parses: the single-row call on it returns. -/
def row_parses {Field : Type} (parser : JSONDataParser Field) (is_nothing : Field → Bool)
    (column : ColumnObject Field) (raw_json_column : List String) (i : Nat) : Bool :=
  match raw_json_column[i]? with
  | none => false
  | some src =>
    (parse_json_to_variant parser is_nothing
      (column_before parser is_nothing column raw_json_column i) src).outcome.is_returned

/-- The number of rows of a batch that fail to parse. -/
def rows_failed {Field : Type} (parser : JSONDataParser Field) (is_nothing : Field → Bool)
    (column : ColumnObject Field) (raw_json_column : List String) : Nat :=
  ((List.range raw_json_column.length).filter
    (fun i => !row_parses parser is_nothing column raw_json_column i)).length

/-- For each row of a batch in turn, whether the single-row call on it returns. -/
def row_flags {Field : Type} (parser : JSONDataParser Field) (is_nothing : Field → Bool) :
    ColumnObject Field → List String → List Bool
  | _, [] => []
  | column, src :: rest =>
    (parse_json_to_variant parser is_nothing column src).outcome.is_returned ::
      row_flags parser is_nothing (parse_json_to_variant parser is_nothing column src).column rest

/-- The filter byte written for a row: 1 when it parsed, 0 when it was filtered. -/
def filter_byte (parsed : Bool) : Nat := if parsed then 1 else 0

/-- The batch loop once the test `failed_ratio < max_filter_ratio` is known to have the value
`below` in every turn. -/
def parse_rows_when {Field : Type} (below : Bool) (parser : JSONDataParser Field)
    (is_nothing : Field → Bool) (size : Nat) :
    Nat → List String → ColumnObject Field → List Nat → Int → BatchResult Field
  | _, [], column, filter, parse_failed =>
    ⟨column, filter, parse_failed, Outcome.returned Status.OK⟩
  | i, raw_json :: rest, column, filter, parse_failed =>
    let r := parse_json_to_variant parser is_nothing column raw_json
    match r.outcome with
    | Outcome.returned _ =>
      parse_rows_when below parser is_nothing size (i + 1) rest r.column (filter.set i 1)
        parse_failed
    | Outcome.threw e =>
      if e.code = ErrorCode.INVALID_ARGUMENT ∧ below = true then
        parse_rows_when below parser is_nothing size (i + 1) rest r.column (filter.set i 0)
          parse_failed
      else
        ⟨r.column, filter, parse_failed,
          Outcome.returned (Status.Aborted parse_failed size)⟩
    | Outcome.assert_failed => ⟨r.column, filter, parse_failed, Outcome.assert_failed⟩

/-- A parser for examples: `{}` is an object without keys, `{"a":1}` has the key `a`, and
`{"a":1,"a":2}` has it twice; everything else is not JSON. -/
def sample_json : JSONDataParser Int :=
  ⟨fun src =>
    if src = "\x7b\x7d" then some ⟨[], []⟩
    else if src = "\x7b\"a\":1\x7d" then some ⟨[⟨"a"⟩], [1]⟩
    else if src = "\x7b\"a\":1,\"a\":2\x7d" then some ⟨[⟨"a"⟩, ⟨"a"⟩], [1, 2]⟩
    else none⟩

/-- In the examples no value is of 'nothing' type. -/
def example_is_nothing : Int → Bool := fun _ => false

/-- The empty variant column. -/
def empty_column : ColumnObject Int := ⟨[], 0⟩

/-- A batch of 100 rows of which the last 11 are not JSON. -/
def rows_100_failing_11 : List String :=
  List.replicate 89 "\x7b\"a\":1\x7d" ++ List.replicate 11 "oops"

/-- A batch of 100 rows of which the last 9 are not JSON. -/
def rows_100_failing_9 : List String :=
  List.replicate 91 "\x7b\"a\":1\x7d" ++ List.replicate 9 "oops"

end vectorized

/-! ## `parse2column.cpp`: `SimpleObjectPool` -/

namespace vectorized

/-- The class `SimpleObjectPool<T>` (parse2column.cpp:64-99): the stack of available objects,
its top first.  The mutex makes every member run alone; it has no value. -/
structure SimpleObjectPool (T : Type) where
  stack : List T
  deriving DecidableEq, Repr

/-- A `SimpleObjectPool<T>::Pointer`, that is `std::unique_ptr<T, Deleter>` whose deleter
points at the pool: the object it owns. -/
structure Pointer (T : Type) where
  object : T
  deriving DecidableEq, Repr

/-- The member `get(f)` (parse2column.cpp:85-94).  A factory call `f()` acts on the world
`W` it allocates in and gives the new object. -/
def SimpleObjectPool.get {T W : Type} (pool : SimpleObjectPool T) (f : W → T × W) (world : W) :
    Pointer T × SimpleObjectPool T × W :=
  match pool.stack with
  | [] => (⟨(f world).1⟩, pool, (f world).2)
  | object :: rest => (⟨object⟩, ⟨rest⟩, world)

/-- The call operator of `Deleter` (parse2column.cpp:75-78), run when a `Pointer` is released:
`parent->stack.emplace(owning_ptr);` -/
def SimpleObjectPool.Deleter {T : Type} (parent : SimpleObjectPool T) (owning_ptr : T) :
    SimpleObjectPool T :=
  ⟨owning_ptr :: parent.stack⟩

/-- The free store: objects are named by the order of their allocation. -/
structure Heap where
  allocated : Nat
  deriving DecidableEq, Repr

/-- The factory `[] { return new JsonParser(); }` (parse2column.cpp:190), and likewise that of
`getDefault`: a `new` expression gives an object that did not exist before. -/
def new_object (h : Heap) : Nat × Heap := (h.allocated, ⟨h.allocated + 1⟩)

/-- A pool together with the pointers its users hold and the free store. -/
structure PoolUse where
  pool : SimpleObjectPool Nat
  outstanding : List (Pointer Nat)
  heap : Heap
  deriving DecidableEq, Repr

/-- What a user of the pool can do: call `get`, or release the `k`-th pointer held. -/
inductive PoolOp
  | get
  | release (k : Nat)
  deriving DecidableEq, Repr

/-- One operation on the pool; releasing a pointer that is not held is not an operation. -/
def PoolUse.step (s : PoolUse) : PoolOp → PoolUse
  | PoolOp.get =>
    let r := s.pool.get new_object s.heap
    ⟨r.2.1, r.1 :: s.outstanding, r.2.2⟩
  | PoolOp.release k =>
    match s.outstanding[k]? with
    | none => s
    | some p => ⟨s.pool.Deleter p.object, s.outstanding.eraseIdx k, s.heap⟩

/-- A new pool: an empty stack, no pointer handed out, nothing allocated. -/
def PoolUse.init : PoolUse := ⟨⟨[]⟩, [], ⟨0⟩⟩

/-- The state after a sequence of operations on a new pool. -/
def PoolUse.run (ops : List PoolOp) : PoolUse := ops.foldl PoolUse.step PoolUse.init

end vectorized

/-! ## `data_type_ipv6_serde.cpp` -/

namespace vectorized

namespace serde

/-- The `Status` values of `_write_column_to_mysql`: `Status::OK()` and
`Status::InternalError(msg)`. -/
inductive Status
  | OK
  | InternalError (msg : String)
  deriving DecidableEq, Repr

/-- The class template `MysqlRowBuffer<is_binary_format>`, declared in
`util/mysql_row_buffer.h` outside the sources: a parameter.  `B` is the state of a row buffer;
a push gives its return code and the buffer after it. -/
structure MysqlRowBuffer (is_binary_format : Bool) (B : Type) where
  push_string : B → String → Int → Int × B
  push_ipv6 : B → Nat → Int × B

/-- The members of `FormatOptions` that this function reads. -/
structure FormatOptions where
  nested_string_wrapper : String
  wrapper_len : Int
  deriving DecidableEq, Repr

/-- The class `DataTypeIPv6SerDe`: its `_nesting_level`. -/
structure DataTypeIPv6SerDe where
  _nesting_level : Int
  deriving DecidableEq, Repr

/-- The helper `index_check_const(arg, constancy)`: row 0 of a constant column. -/
def index_check_const (arg : Nat) (constancy : Bool) : Nat := if constancy then 0 else arg

/-- The template `DataTypeIPv6SerDe::_write_column_to_mysql<is_binary_format>`
(data_type_ipv6_serde.cpp:33-57).  The column is the vector of its 128-bit values and
`row_idx` is a row of it. -/
def DataTypeIPv6SerDe._write_column_to_mysql {is_binary_format : Bool} {B : Type}
    (self : DataTypeIPv6SerDe) (buffer : MysqlRowBuffer is_binary_format B) (column : List Nat)
    (result : B) (row_idx : Nat) (col_const : Bool) (options : FormatOptions) : Status × B :=
  let col_index := index_check_const row_idx col_const
  let ipv6_val := column.getD col_index 0
  let after_value : B → Status × B := fun b =>
    if self._nesting_level ≥ 2 ∧ options.wrapper_len > 0 then
      let r := buffer.push_string b options.nested_string_wrapper options.wrapper_len
      if 0 ≠ r.1 then (Status.InternalError "pack mysql buffer failed.", r.2)
      else (Status.OK, r.2)
    else (Status.OK, b)
  let from_value : B → Status × B := fun b =>
    let r := buffer.push_ipv6 b ipv6_val
    if 0 ≠ r.1 then (Status.InternalError "pack mysql buffer failed.", r.2)
    else after_value r.2
  if self._nesting_level ≥ 2 ∧ options.wrapper_len > 0 then
    let r := buffer.push_string result options.nested_string_wrapper options.wrapper_len
    if 0 ≠ r.1 then (Status.InternalError "pack mysql buffer failed.", r.2)
    else from_value r.2
  else from_value result

/-- The overload `write_column_to_mysql(column, MysqlRowBuffer<true>&, ...)`
(data_type_ipv6_serde.cpp:59-64). -/
def DataTypeIPv6SerDe.write_column_to_mysql_binary {B : Type} (self : DataTypeIPv6SerDe)
    (buffer : MysqlRowBuffer true B) (column : List Nat) (row_buffer : B) (row_idx : Nat)
    (col_const : Bool) (options : FormatOptions) : Status × B :=
  self._write_column_to_mysql buffer column row_buffer row_idx col_const options

/-- The overload `write_column_to_mysql(column, MysqlRowBuffer<false>&, ...)`
(data_type_ipv6_serde.cpp:66-71). -/
def DataTypeIPv6SerDe.write_column_to_mysql_text {B : Type} (self : DataTypeIPv6SerDe)
    (buffer : MysqlRowBuffer false B) (column : List Nat) (row_buffer : B) (row_idx : Nat)
    (col_const : Bool) (options : FormatOptions) : Status × B :=
  self._write_column_to_mysql buffer column row_buffer row_idx col_const options

/-- Something pushed to a row buffer: a string with its length, or an IPv6 value. -/
inductive Push
  | string (s : String) (len : Int)
  | ipv6 (v : Nat)
  deriving DecidableEq, Repr

/-- One push on a row buffer. -/
def MysqlRowBuffer.push {is_binary_format : Bool} {B : Type}
    (buffer : MysqlRowBuffer is_binary_format B) (b : B) : Push → Int × B
  | Push.string s len => buffer.push_string b s len
  | Push.ipv6 v => buffer.push_ipv6 b v

/-- The behaviour as the claim words it: the pushes are made in order; the result is OK if
every push returned 0; a push that returns non-zero gives
`InternalError("pack mysql buffer failed.")` and no later push is made. -/
def push_in_order {is_binary_format : Bool} {B : Type}
    (buffer : MysqlRowBuffer is_binary_format B) : B → List Push → Status × B
  | b, [] => (Status.OK, b)
  | b, item :: rest =>
    if (buffer.push b item).1 = 0 then push_in_order buffer (buffer.push b item).2 rest
    else (Status.InternalError "pack mysql buffer failed.", (buffer.push b item).2)

/-- What the claim says the row buffer receives. -/
def pushes_wanted (self : DataTypeIPv6SerDe) (options : FormatOptions) (ipv6_val : Nat) :
    List Push :=
  if self._nesting_level ≥ 2 ∧ options.wrapper_len > 0 then
    [Push.string options.nested_string_wrapper options.wrapper_len, Push.ipv6 ipv6_val,
      Push.string options.nested_string_wrapper options.wrapper_len]
  else [Push.ipv6 ipv6_val]

/-- A row buffer that records what it receives and has room for `capacity` pushes: a push
beyond that returns 1 and leaves the buffer as it is. -/
def recording_buffer (is_binary_format : Bool) (capacity : Nat) :
    MysqlRowBuffer is_binary_format (List Push) :=
  ⟨fun b s len => if b.length < capacity then (0, b ++ [Push.string s len]) else (1, b),
   fun b v => if b.length < capacity then (0, b ++ [Push.ipv6 v]) else (1, b)⟩

end serde

end vectorized

/-! ## `vtablet_sink_v2.h`: the partition router -/

/-- The member `emplace(key, value)` of a map: stores the value unless the key is present. -/
def unordered_map.emplace {K V : Type} [DecidableEq K] (m : unordered_map K V) (k : K) (v : V) :
    unordered_map K V :=
  match unordered_map.find m k with
  | some _ => m
  | none => (k, v) :: m

namespace stream_load

/-- The enum `FindTabletMode` (vtablet_sink_v2.h:288-294). -/
inductive FindTabletMode
  | FIND_TABLET_EVERY_ROW
  | FIND_TABLET_EVERY_BATCH
  | FIND_TABLET_EVERY_SINK
  deriving DecidableEq, Repr

/-- Modelled from the spec: `VOlapTablePartition` is declared in `exec/tablet_info.h`, which is
not among the sources.  A partition contains "one or more tablets" and is distributed by hash
or at random ("optional random-distribution fallback"). -/
structure VOlapTablePartition where
  id : Int
  num_tablets : Nat
  random_distribution : Bool
  deriving DecidableEq, Repr

/-- The members of `VOlapTableSinkV2` that routing works on: `findTabletMode`
(vtablet_sink_v2.h:295) and `_partition_to_tablet_map` (vtablet_sink_v2.h:227-228), with the
number of pseudo-random choices made so far. -/
structure TabletRouter where
  findTabletMode : FindTabletMode
  _partition_to_tablet_map : unordered_map Int Nat
  choices_made : Nat
  deriving DecidableEq, Repr

/-- What `find_tablet` reports through its reference parameters. -/
structure Located where
  partition : Option VOlapTablePartition
  tablet_index : Nat
  stop_processing : Bool
  is_continue : Bool
  deriving DecidableEq, Repr

/-- Modelled from the spec: `VOlapTableSinkV2::find_tablet` is declared at
vtablet_sink_v2.h:191-193 and defined in `vtablet_sink_v2.cpp`, which is not among the sources.
"if no partition matches, either signal `skip=true` ... or signal a fatal error depending on
configuration.  Given a matched partition, resolve a tablet index via: hash distribution →
compute a stable hash of the distribution columns modulo the partition's tablet count,
independent of FindTabletMode; random distribution → if PER_ROW, choose pseudo-randomly per
row; if PER_BATCH, choose once per incoming batch and reuse for every row landing in that
partition during the batch; if PER_SINK, choose once per partition for the entire transaction
and cache it, reused for all subsequent batches."  `find_partition` is the search of the
partition bounds, `hash` the hash of the distribution columns, `choose n` the `n`-th
pseudo-random choice, and `tolerate_unmatched` the configuration for rows without partition. -/
def VOlapTableSinkV2.find_tablet {Row : Type} (find_partition : Row → Option VOlapTablePartition)
    (hash : Row → Nat) (choose : Nat → Nat) (tolerate_unmatched : Bool) (s : TabletRouter)
    (row : Row) : Located × TabletRouter :=
  match find_partition row with
  | none => (⟨none, 0, !tolerate_unmatched, tolerate_unmatched⟩, s)
  | some partition =>
    if partition.random_distribution then
      match s.findTabletMode with
      | FindTabletMode.FIND_TABLET_EVERY_ROW =>
        (⟨some partition, choose s.choices_made % partition.num_tablets, false, false⟩,
          { s with choices_made := s.choices_made + 1 })
      | _ =>
        match unordered_map.find s._partition_to_tablet_map partition.id with
        | some tablet_index => (⟨some partition, tablet_index, false, false⟩, s)
        | none =>
          (⟨some partition, choose s.choices_made % partition.num_tablets, false, false⟩,
            { s with
              _partition_to_tablet_map := unordered_map.emplace s._partition_to_tablet_map
                partition.id (choose s.choices_made % partition.num_tablets),
              choices_made := s.choices_made + 1 })
    else
      (⟨some partition, hash row % partition.num_tablets, false, false⟩, s)

/-- Modelled from the spec: the start of `send` for a new batch, defined in
`vtablet_sink_v2.cpp`.  With PER_BATCH the choice is made "once per incoming batch", so the
choices of the batch before are dropped; with PER_SINK they are kept "for the entire
transaction". -/
def VOlapTableSinkV2.begin_batch (s : TabletRouter) : TabletRouter :=
  match s.findTabletMode with
  | FindTabletMode.FIND_TABLET_EVERY_BATCH => { s with _partition_to_tablet_map := [] }
  | _ => s

/-- What happens to a sink between two calls of `find_tablet`: a row is routed, or a new
batch begins. -/
inductive RouterEvent (Row : Type)
  | row (r : Row)
  | batch

/-- The router after one event. -/
def VOlapTableSinkV2.route_event {Row : Type} (find_partition : Row → Option VOlapTablePartition)
    (hash : Row → Nat) (choose : Nat → Nat) (tolerate_unmatched : Bool) (s : TabletRouter) :
    RouterEvent Row → TabletRouter
  | RouterEvent.row r =>
    (VOlapTableSinkV2.find_tablet find_partition hash choose tolerate_unmatched s r).2
  | RouterEvent.batch => VOlapTableSinkV2.begin_batch s

/-- The router after a sequence of events. -/
def VOlapTableSinkV2.route_events {Row : Type}
    (find_partition : Row → Option VOlapTablePartition) (hash : Row → Nat) (choose : Nat → Nat)
    (tolerate_unmatched : Bool) (s : TabletRouter) (events : List (RouterEvent Row)) :
    TabletRouter :=
  events.foldl (VOlapTableSinkV2.route_event find_partition hash choose tolerate_unmatched) s

/-- Partitions for examples: rows below 10 are in partition 7 with four tablets, rows below 20
in partition 8 with three tablets, both distributed at random; other rows match none. -/
def sample_find_partition (row : Nat) : Option VOlapTablePartition :=
  if row < 10 then some ⟨7, 4, true⟩ else if row < 20 then some ⟨8, 3, true⟩ else none

/-- Pseudo-random choices for examples. -/
def sample_choose (n : Nat) : Nat := 5 * n + 2

/-- Events for examples: a row of another partition, a new batch, a row of partition 7, a
row without partition, a new batch. -/
def sample_events : List (RouterEvent Nat) :=
  [RouterEvent.row 15, RouterEvent.batch, RouterEvent.row 3, RouterEvent.row 25,
    RouterEvent.batch]

end stream_load

/-! ## `parse2column.cpp`: the row-count invariant -/

namespace vectorized

/-- The paths of the entries of a parse result whose value is not of 'nothing' type, in the
order of the entries. -/
def live_paths {Field : Type} (is_nothing : Field → Bool) (l : List (PathInData × Field)) :
    List String :=
  (l.filter (fun pv => !is_nothing pv.2)).map (fun pv => pv.1.get_path)

/-- The state of a column while a row is inserted: every path has one subcolumn, and a
subcolumn has `num_rows + 1` values if its path has been inserted in this call and `num_rows`
if not. -/
def rows_consistent {Field : Type} (num_rows : Nat) (paths_set : List String)
    (column : ColumnObject Field) : Prop :=
  (column.subcolumns.map (fun e => e.path)).Nodup ∧
  ∀ e ∈ column.subcolumns,
    e.data.size = if e.path.get_path ∈ paths_set then num_rows + 1 else num_rows

/-- The row `{"a":1,"a":2}` of the examples, an object with an ambiguous path. -/
def ambiguous_row : String := "\x7b\"a\":1,\"a\":2\x7d"

/-- A parser for examples with null values, a null being the value 0: `{"a":null,"a":2}` has
the key `a` twice, once with a null; `{"a":1,"b":null,"a":2}` has it twice with values. -/
def json_with_nulls : JSONDataParser Int :=
  ⟨fun src =>
    if src = "\x7b\"a\":null,\"a\":2\x7d" then some ⟨[⟨"a"⟩, ⟨"a"⟩], [0, 2]⟩
    else if src = "\x7b\"a\":1,\"b\":null,\"a\":2\x7d" then
      some ⟨[⟨"a"⟩, ⟨"b"⟩, ⟨"a"⟩], [1, 0, 2]⟩
    else none⟩

/-- In the examples with nulls the value 0 is of 'nothing' type. -/
def null_is_nothing : Int → Bool := fun v => decide (v = 0)

/-- A column of one row with the subcolumn `b`. -/
def column_b : ColumnObject Int := ⟨[⟨⟨"b"⟩, ⟨[some 5]⟩⟩], 1⟩

end vectorized

/-! ## `parse2column.cpp`: the loop with assertions compiled out -/

namespace vectorized

/-- The loop at parse2column.cpp:154-177 as it runs when `NDEBUG` is defined: the same
statements as `insert_values`, `assert(subcolumn->size() == num_rows)` being empty. -/
def insert_values_unchecked {Field : Type} (is_nothing : Field → Bool) (num_rows : Nat) :
    List (PathInData × Field) → List String → ColumnObject Field → InsertState Field
  | [], paths_set, column => ⟨paths_set, column, Outcome.returned ()⟩
  | (path, value) :: rest, paths_set, column =>
    if is_nothing value then
      insert_values_unchecked is_nothing num_rows rest paths_set column
    else if path.get_path ∈ paths_set then
      ⟨paths_set, column,
        Outcome.threw ⟨ErrorCode.INVALID_ARGUMENT, "Object has ambiguous path " ++ path.get_path⟩⟩
    else
      let paths_set1 := path.get_path :: paths_set
      let column1 :=
        if column.has_subcolumn path then column else column.add_sub_column path num_rows
      match column1.get_subcolumn path with
      | none =>
        ⟨paths_set1, column1,
          Outcome.threw ⟨ErrorCode.INVALID_ARGUMENT, "Failed to find sub column " ++ path.get_path⟩⟩
      | some subcolumn =>
        insert_values_unchecked is_nothing num_rows rest paths_set1
          (column1.set_subcolumn path (subcolumn.insert value))

end vectorized

end doris

/-! ## Theorems -/

namespace doris

namespace stream_load

/-- Bits of the `size_t` conversion: the low 64 bits of the two's complement representation. -/
theorem to_size_t_testBit (z : Int) (i : Nat) :
    (to_size_t z).testBit i = (decide (i < 64) && z.testBit i) := by
  unfold to_size_t
  cases z with
  | ofNat m =>
    have h : ((Int.ofNat m) % 2 ^ 64).toNat = m % 2 ^ 64 := by
      simp only [Int.ofNat_eq_coe]
      omega
    rw [h, Nat.testBit_mod_two_pow]
    rfl
  | negSucc m =>
    have hlt : m % 2 ^ 64 < 2 ^ 64 := Nat.mod_lt _ (by norm_num)
    have h : ((Int.negSucc m) % 2 ^ 64).toNat = 2 ^ 64 - (m % 2 ^ 64 + 1) := by
      have h1 : (Int.negSucc m) = -((m : Int) + 1) := by
        rw [Int.negSucc_eq]
      rw [h1]
      have h2 : (m : Int) = ((m / 2 ^ 64 : Nat) : Int) * 2 ^ 64 + ((m % 2 ^ 64 : Nat) : Int) := by
        have := Nat.div_add_mod m (2 ^ 64)
        push_cast
        omega
      omega
    rw [h, Nat.testBit_two_pow_sub_succ hlt, Nat.testBit_mod_two_pow]
    simp only [Int.testBit]
    cases decide (i < 64) <;> simp

/-- Wrapping into `int64_t` preserves the value modulo `2^64`. -/
theorem to_size_t_wrap_int64 (x : Int) : to_size_t (wrap_int64 x) = to_size_t x := by
  unfold to_size_t wrap_int64
  congr 1
  omega

/-- Below bit 64, wrapping into `int64_t` preserves every bit. -/
theorem wrap_int64_testBit (x : Int) (i : Nat) (h : i < 64) :
    (wrap_int64 x).testBit i = x.testBit i := by
  have h1 := to_size_t_testBit (wrap_int64 x) i
  have h2 := to_size_t_testBit x i
  rw [to_size_t_wrap_int64] at h1
  rw [h1] at h2
  simpa [h] using h2

/-- C4: `TabletKey` has value equality.  `a == b` holds exactly when the three fields agree,
and `==` is reflexive, symmetric and transitive. -/
theorem TabletKey_eq_value_equality :
    (∀ a b : TabletKey, TabletKey.eq a b = true ↔
      (a.partition_id = b.partition_id ∧ a.index_id = b.index_id ∧ a.tablet_id = b.tablet_id)) ∧
    (∀ a : TabletKey, TabletKey.eq a a = true) ∧
    (∀ a b : TabletKey, TabletKey.eq a b = true → TabletKey.eq b a = true) ∧
    (∀ a b c : TabletKey, TabletKey.eq a b = true → TabletKey.eq b c = true →
      TabletKey.eq a c = true) := by
  refine ⟨?_, ?_, ?_, ?_⟩
  · intro a b
    simp [TabletKey.eq, and_assoc]
  · intro a
    simp [TabletKey.eq]
  · intro a b h
    simp only [TabletKey.eq, Bool.and_eq_true, decide_eq_true_eq] at h ⊢
    exact ⟨⟨h.1.1.symm, h.1.2.symm⟩, h.2.symm⟩
  · intro a b c h1 h2
    simp only [TabletKey.eq, Bool.and_eq_true, decide_eq_true_eq] at h1 h2 ⊢
    exact ⟨⟨h1.1.1.trans h2.1.1, h1.1.2.trans h2.1.2⟩, h1.2.trans h2.2⟩

/-- C5: `TabletKeyHash` is the value `((partition_id << 2) xor (index_id << 1) xor tablet_id)`
taken modulo `2^64`, a function of the three fields only, and keys that compare equal with
`==` have equal hashes. -/
theorem TabletKeyHash_stable :
    (∀ k : TabletKey, TabletKeyHash k = TabletKeyHash_spec k) ∧
    (∀ k : TabletKey, TabletKeyHash k < 2 ^ 64) ∧
    (∀ a b : TabletKey, TabletKey.eq a b = true → TabletKeyHash a = TabletKeyHash b) := by
  refine ⟨?_, ?_, ?_⟩
  · intro k
    apply Nat.eq_of_testBit_eq
    intro i
    have hs : TabletKeyHash_spec k =
        to_size_t (Int.xor (Int.xor (k.partition_id * 2 ^ 2) (k.index_id * 2 ^ 1))
          k.tablet_id) := by
      have e1 : k.partition_id <<< (2 : Int) = k.partition_id * 2 ^ 2 := by
        have := Int.shiftLeft_eq_mul_pow k.partition_id 2
        simpa using this
      have e2 : k.index_id <<< (1 : Int) = k.index_id * 2 ^ 1 := by
        have := Int.shiftLeft_eq_mul_pow k.index_id 1
        simpa using this
      unfold TabletKeyHash_spec to_size_t
      rw [e1, e2]
    rw [hs]
    unfold TabletKeyHash xor_int64 shl_int64
    rw [to_size_t_testBit, to_size_t_testBit]
    by_cases h : i < 64
    · simp only [Int.testBit_lxor, wrap_int64_testBit _ _ h]
    · simp [h]
  · intro k
    unfold TabletKeyHash to_size_t
    omega
  · intro a b h
    simp only [TabletKey.eq, Bool.and_eq_true, decide_eq_true_eq] at h
    unfold TabletKeyHash
    rw [h.1.1, h.1.2, h.2]

/-- C8: `StreamSinkHandler::on_idle_timeout` is passive.  For every stream id and every state
it leaves the sink (stream pools, writer registry, outcome maps, counters) and the set of
closed streams as they were. -/
theorem on_idle_timeout_passive (id : StreamId) (w : SinkWorld) :
    StreamSinkHandler.on_idle_timeout id w = w ∧
    (StreamSinkHandler.on_idle_timeout id w).sink = w.sink ∧
    (StreamSinkHandler.on_idle_timeout id w).closed_streams = w.closed_streams :=
  ⟨rfl, rfl, rfl⟩

end stream_load

/-- C9: the token handed out by `LoadStreamMgr::new_token` belongs to the manager's
segment-file-writer pool, has mode `SERIAL` and not `CONCURRENT`, is the pool's next
allocation (so a second call hands out a different token), and the call leaves the map of
load streams as it was. -/
theorem new_token_serial (m : LoadStreamMgr) :
    (LoadStreamMgr.new_token m).1.pool_id = m._file_writer_thread_pool.pool_id ∧
    (LoadStreamMgr.new_token m).1.mode = ExecutionMode.SERIAL ∧
    (LoadStreamMgr.new_token m).1.mode ≠ ExecutionMode.CONCURRENT ∧
    (LoadStreamMgr.new_token m).1.serial = m._file_writer_thread_pool.tokens_allocated ∧
    (LoadStreamMgr.new_token m).2._file_writer_thread_pool.tokens_allocated =
      m._file_writer_thread_pool.tokens_allocated + 1 ∧
    (LoadStreamMgr.new_token (LoadStreamMgr.new_token m).2).1 ≠ (LoadStreamMgr.new_token m).1 ∧
    (LoadStreamMgr.new_token m).2._load_streams_map = m._load_streams_map := by
  refine ⟨rfl, rfl, ?_, rfl, rfl, ?_, rfl⟩
  · simp [LoadStreamMgr.new_token, ThreadPool.new_token]
  · simp [LoadStreamMgr.new_token, ThreadPool.new_token]

/-- C10: `LoadStreamMgr::clear_load` is idempotent.  After `clear_load(id)` the map has no
entry for `id`, the entry of every other id is as before, the thread pool is untouched, and a
second `clear_load(id)` gives the same state as the first. -/
theorem clear_load_idempotent (m : LoadStreamMgr) (id : UniqueId) :
    unordered_map.find (LoadStreamMgr.clear_load m id)._load_streams_map id = none ∧
    (∀ other : UniqueId, other ≠ id →
      unordered_map.find (LoadStreamMgr.clear_load m id)._load_streams_map other =
        unordered_map.find m._load_streams_map other) ∧
    (LoadStreamMgr.clear_load m id)._file_writer_thread_pool = m._file_writer_thread_pool ∧
    LoadStreamMgr.clear_load (LoadStreamMgr.clear_load m id) id = LoadStreamMgr.clear_load m id := by
  refine ⟨?_, ?_, rfl, ?_⟩
  · simp only [LoadStreamMgr.clear_load, unordered_map.find, unordered_map.erase]
    rw [Option.map_eq_none', List.find?_eq_none]
    intro e he
    simp only [List.mem_filter] at he
    simpa using he.2
  · intro other hne
    simp only [LoadStreamMgr.clear_load, unordered_map.find, unordered_map.erase]
    congr 1
    induction m._load_streams_map with
    | nil => rfl
    | cons e rest ih =>
      by_cases h : e.1 = id
      · have hne2 : ¬ id = other := fun h5 => hne h5.symm
        simp [List.filter_cons, List.find?_cons, h, hne2, ih]
      · simp only [List.filter_cons, h, decide_False, Bool.not_false, if_true, List.find?_cons, ih]
  · simp [LoadStreamMgr.clear_load, unordered_map.erase, List.filter_filter]

namespace vectorized

/-! ### The single-row call and the row count -/

/-- The loop over the parsed paths never changes the row count. -/
theorem insert_values_num_rows {Field : Type} (is_nothing : Field → Bool) (num_rows : Nat)
    (l : List (PathInData × Field)) :
    ∀ (paths_set : List String) (column : ColumnObject Field),
      (insert_values is_nothing num_rows l paths_set column).column.num_rows =
        column.num_rows := by
  induction l with
  | nil => intro paths_set column; rfl
  | cons pv rest ih =>
    intro paths_set column
    obtain ⟨path, value⟩ := pv
    simp only [insert_values]
    split
    · exact ih _ _
    · split
      · rfl
      · split
        · split <;> rfl
        · split
          · rw [ih]
            split <;> rfl
          · split <;> rfl

/-- A single-row call that returns has added one row; one that does not return has left the
row count as it was. -/
theorem parse_json_to_variant_num_rows {Field : Type} (parser : JSONDataParser Field)
    (is_nothing : Field → Bool) (column : ColumnObject Field) (src : String) :
    (parse_json_to_variant parser is_nothing column src).column.num_rows =
      column.num_rows +
        (if (parse_json_to_variant parser is_nothing column src).outcome.is_returned
          then 1 else 0) := by
  unfold parse_json_to_variant
  generalize (if src.length > 0 then parser.parse src else some ⟨[], []⟩) = result
  cases result with
  | none => simp [Outcome.is_returned]
  | some r =>
    by_cases h : r.paths.length = r.values.length
    · have hn := insert_values_num_rows is_nothing column.size (List.zip r.paths r.values) []
        column
      simp only [h, if_true]
      generalize insert_values is_nothing column.size (List.zip r.paths r.values) [] column = st
        at hn ⊢
      obtain ⟨ps, col, out⟩ := st
      cases out <;>
        simp_all [Outcome.is_returned, ColumnObject.incr_num_rows, insert_defaults]
    · simp [h, Outcome.is_returned]

/-! ### The batch loop -/

/-- One turn of the batch loop. -/
theorem parse_rows_cons {Field : Type} (parser : JSONDataParser Field)
    (is_nothing : Field → Bool) (size : Nat) (max_filter_ratio : ℚ) (i : Nat) (src : String)
    (rest : List String) (column : ColumnObject Field) (filter : List Nat) (parse_failed : Int) :
    parse_rows parser is_nothing size max_filter_ratio i (src :: rest) column filter parse_failed =
      match (parse_json_to_variant parser is_nothing column src).outcome with
      | Outcome.returned _ =>
        parse_rows parser is_nothing size max_filter_ratio (i + 1) rest
          (parse_json_to_variant parser is_nothing column src).column (filter.set i 1) parse_failed
      | Outcome.threw e =>
        if e.code = ErrorCode.INVALID_ARGUMENT ∧
            (parse_failed : ℚ) / (size : ℚ) < max_filter_ratio then
          parse_rows parser is_nothing size max_filter_ratio (i + 1) rest
            (parse_json_to_variant parser is_nothing column src).column (filter.set i 0)
            parse_failed
        else
          ⟨(parse_json_to_variant parser is_nothing column src).column, filter, parse_failed,
            Outcome.returned (Status.Aborted parse_failed size)⟩
      | Outcome.assert_failed =>
        ⟨(parse_json_to_variant parser is_nothing column src).column, filter, parse_failed,
          Outcome.assert_failed⟩ := by
  simp only [parse_rows]

/-- The local `parse_failed` leaves the loop with the value it entered it with. -/
theorem parse_rows_parse_failed {Field : Type} (parser : JSONDataParser Field)
    (is_nothing : Field → Bool) (size : Nat) (max_filter_ratio : ℚ) (rows : List String) :
    ∀ (i : Nat) (column : ColumnObject Field) (filter : List Nat) (parse_failed : Int),
      (parse_rows parser is_nothing size max_filter_ratio i rows column filter
        parse_failed).parse_failed = parse_failed := by
  induction rows with
  | nil => intro i column filter parse_failed; rfl
  | cons src rest ih =>
    intro i column filter parse_failed
    rw [parse_rows_cons]
    split
    · exact ih _ _ _ _
    · split
      · exact ih _ _ _ _
      · rfl
    · rfl

/-- What the loop has done when it ends with `Status::OK()`: the filter bytes before row `i`
are untouched, the byte of every row from `i` on tells whether the row parsed, and the row
count has grown by the number of rows that parsed. -/
theorem parse_rows_OK {Field : Type} (parser : JSONDataParser Field)
    (is_nothing : Field → Bool) (size : Nat) (max_filter_ratio : ℚ) (rows : List String) :
    ∀ (i : Nat) (column : ColumnObject Field) (filter : List Nat) (parse_failed : Int),
      (parse_rows parser is_nothing size max_filter_ratio i rows column filter
        parse_failed).result = Outcome.returned Status.OK →
      i + rows.length ≤ filter.length →
      (∀ j, j < i →
        (parse_rows parser is_nothing size max_filter_ratio i rows column filter
          parse_failed).filter[j]? = filter[j]?) ∧
      (∀ j, j < rows.length →
        (parse_rows parser is_nothing size max_filter_ratio i rows column filter
          parse_failed).filter[i + j]? =
            ((row_flags parser is_nothing column rows)[j]?).map filter_byte) ∧
      (parse_rows parser is_nothing size max_filter_ratio i rows column filter
          parse_failed).column.num_rows =
        column.num_rows + (row_flags parser is_nothing column rows).count true := by
  induction rows with
  | nil =>
    intro i column filter parse_failed _ _
    refine ⟨fun j _ => rfl, fun j hj => absurd hj (Nat.not_lt_zero j), ?_⟩
    simp [parse_rows, row_flags]
  | cons src rest ih =>
    intro i column filter parse_failed hok hlen
    have hnum := parse_json_to_variant_num_rows parser is_nothing column src
    simp only [List.length_cons] at hlen
    rw [parse_rows_cons] at hok ⊢
    simp only [row_flags]
    generalize parse_json_to_variant parser is_nothing column src = rr at hok hnum ⊢
    obtain ⟨col1, out⟩ := rr
    simp only at hok hnum ⊢
    have key : ∀ (b : Bool), out.is_returned = b →
        (parse_rows parser is_nothing size max_filter_ratio (i + 1) rest col1
          (filter.set i (filter_byte b)) parse_failed).result = Outcome.returned Status.OK →
        (∀ j, j < i →
          (parse_rows parser is_nothing size max_filter_ratio (i + 1) rest col1
            (filter.set i (filter_byte b)) parse_failed).filter[j]? = filter[j]?) ∧
        (∀ j, j < (src :: rest).length →
          (parse_rows parser is_nothing size max_filter_ratio (i + 1) rest col1
            (filter.set i (filter_byte b)) parse_failed).filter[i + j]? =
              ((out.is_returned :: row_flags parser is_nothing col1 rest)[j]?).map filter_byte) ∧
        (parse_rows parser is_nothing size max_filter_ratio (i + 1) rest col1
            (filter.set i (filter_byte b)) parse_failed).column.num_rows =
          column.num_rows + (out.is_returned :: row_flags parser is_nothing col1 rest).count true := by
      intro b hb hok1
      have hlen1 : i + 1 + rest.length ≤ (filter.set i (filter_byte b)).length := by
        rw [List.length_set]; omega
      obtain ⟨h1, h2, h3⟩ := ih (i + 1) col1 (filter.set i (filter_byte b)) parse_failed hok1 hlen1
      refine ⟨?_, ?_, ?_⟩
      · intro j hj
        rw [h1 j (by omega), List.getElem?_set_ne (by omega)]
      · intro j hj
        cases j with
        | zero =>
          simp only [Nat.add_zero, List.getElem?_cons_zero, Option.map_some']
          rw [h1 i (by omega), List.getElem?_set_self (by omega), hb]
        | succ k =>
          have hk : k < rest.length := by simpa using hj
          have := h2 k hk
          rw [show i + (k + 1) = i + 1 + k by omega, this, List.getElem?_cons_succ]
      · rw [h3, hnum, hb]
        cases b <;> simp [List.count_cons]
        omega
    cases out with
    | returned a =>
      exact key true rfl hok
    | threw e =>
      by_cases hc : e.code = ErrorCode.INVALID_ARGUMENT ∧
          (parse_failed : ℚ) / (size : ℚ) < max_filter_ratio
      · simp only [if_pos hc] at hok ⊢
        exact key false rfl hok
      · simp [if_neg hc] at hok
    | assert_failed =>
      simp at hok

/-- The column that row `j + 1` finds is the one that row `j` of the remaining rows finds
after the first row has been processed. -/
theorem column_before_cons_succ {Field : Type} (parser : JSONDataParser Field)
    (is_nothing : Field → Bool) (column : ColumnObject Field) (src : String)
    (rest : List String) (j : Nat) :
    column_before parser is_nothing column (src :: rest) (j + 1) =
      column_before parser is_nothing
        (parse_json_to_variant parser is_nothing column src).column rest j := by
  simp [column_before]

/-- The flags computed along the loop are the values of `row_parses`. -/
theorem row_flags_eq_map {Field : Type} (parser : JSONDataParser Field)
    (is_nothing : Field → Bool) (rows : List String) :
    ∀ column : ColumnObject Field,
      row_flags parser is_nothing column rows =
        (List.range rows.length).map (row_parses parser is_nothing column rows) := by
  induction rows with
  | nil => intro column; rfl
  | cons src rest ih =>
    intro column
    rw [List.length_cons, List.range_succ_eq_map, List.map_cons, List.map_map]
    simp only [row_flags]
    congr 1
    · simp [row_parses, column_before]
    · rw [ih]
      apply List.map_congr_left
      intro j _
      simp [row_parses, column_before_cons_succ]

/-- The flags are as many as the rows. -/
theorem row_flags_length {Field : Type} (parser : JSONDataParser Field)
    (is_nothing : Field → Bool) (rows : List String) (column : ColumnObject Field) :
    (row_flags parser is_nothing column rows).length = rows.length := by
  rw [row_flags_eq_map]; simp

/-- Counting the bytes 1 counts the rows that parsed. -/
theorem count_one_filter_byte (flags : List Bool) :
    (flags.map filter_byte).count 1 = flags.count true := by
  induction flags with
  | nil => rfl
  | cons b rest ih => cases b <;> simp [filter_byte, List.count_cons, ih]

/-- Counting the bytes 0 counts the rows that did not parse. -/
theorem count_zero_filter_byte (flags : List Bool) :
    (flags.map filter_byte).count 0 = flags.count false := by
  induction flags with
  | nil => rfl
  | cons b rest ih => cases b <;> simp [filter_byte, List.count_cons, ih]

/-- The rows that fail are the flags that are false. -/
theorem rows_failed_eq_count {Field : Type} (parser : JSONDataParser Field)
    (is_nothing : Field → Bool) (column : ColumnObject Field) (rows : List String) :
    rows_failed parser is_nothing column rows =
      (row_flags parser is_nothing column rows).count false := by
  rw [row_flags_eq_map, rows_failed, List.count_eq_countP, List.countP_map,
    List.countP_eq_length_filter]
  congr 2
  funext i
  simp only [Function.comp]
  cases row_parses parser is_nothing column rows i <;> rfl

/-- When the batch ends with `Status::OK()`, the first `n` filter bytes are the bytes of the
flags of the `n` rows. -/
theorem batch_OK_filter_take {Field : Type} (parser : JSONDataParser Field)
    (is_nothing : Field → Bool) (column : ColumnObject Field) (rows : List String)
    (max_filter_ratio : ℚ) (filter : List Nat) (hlen : rows.length ≤ filter.length)
    (hok : (parse_json_to_variant_batch parser is_nothing column rows max_filter_ratio
      filter).result = Outcome.returned Status.OK) :
    (parse_json_to_variant_batch parser is_nothing column rows max_filter_ratio
      filter).filter.take rows.length =
        (row_flags parser is_nothing column rows).map filter_byte := by
  unfold parse_json_to_variant_batch at hok ⊢
  obtain ⟨_, h2, _⟩ := parse_rows_OK parser is_nothing rows.length max_filter_ratio rows 0
    column filter 0 hok (by omega)
  apply List.ext_getElem?
  intro k
  rw [List.getElem?_take, List.getElem?_map]
  by_cases hk : k < rows.length
  · have := h2 k hk
    rw [Nat.zero_add] at this
    rw [if_pos hk, this]
  · rw [if_neg hk, List.getElem?_eq_none (by rw [row_flags_length]; omega)]
    rfl

/-- The test `failed_ratio < max_filter_ratio` has the same value in every turn of the loop,
because `parse_failed` never changes. -/
theorem parse_rows_eq_when {Field : Type} (parser : JSONDataParser Field)
    (is_nothing : Field → Bool) (size : Nat) (max_filter_ratio : ℚ) (parse_failed : Int)
    (rows : List String) :
    ∀ (i : Nat) (column : ColumnObject Field) (filter : List Nat),
      parse_rows parser is_nothing size max_filter_ratio i rows column filter parse_failed =
        parse_rows_when (decide ((parse_failed : ℚ) / (size : ℚ) < max_filter_ratio)) parser
          is_nothing size i rows column filter parse_failed := by
  induction rows with
  | nil => intro i column filter; rfl
  | cons src rest ih =>
    intro i column filter
    simp only [parse_rows, parse_rows_when, ih, decide_eq_true_eq]

/-- With a threshold above zero the test is true in every turn of the batch. -/
theorem batch_eq_when_pos {Field : Type} (parser : JSONDataParser Field)
    (is_nothing : Field → Bool) (column : ColumnObject Field) (rows : List String)
    (max_filter_ratio : ℚ) (filter : List Nat) (hpos : 0 < max_filter_ratio) :
    parse_json_to_variant_batch parser is_nothing column rows max_filter_ratio filter =
      parse_rows_when true parser is_nothing rows.length 0 rows column filter 0 := by
  unfold parse_json_to_variant_batch
  rw [parse_rows_eq_when]
  congr 1
  simpa using hpos

/-- With a threshold that is not above zero the test is false in every turn of the batch. -/
theorem batch_eq_when_nonpos {Field : Type} (parser : JSONDataParser Field)
    (is_nothing : Field → Bool) (column : ColumnObject Field) (rows : List String)
    (max_filter_ratio : ℚ) (filter : List Nat) (hle : max_filter_ratio ≤ 0) :
    parse_json_to_variant_batch parser is_nothing column rows max_filter_ratio filter =
      parse_rows_when false parser is_nothing rows.length 0 rows column filter 0 := by
  unfold parse_json_to_variant_batch
  rw [parse_rows_eq_when]
  congr 1
  simpa using hle

/-! ### The claims about `parse2column.cpp` -/

set_option maxRecDepth 100000 in
/-- C1, the code at the failing input: in a batch of 100 rows, 11 fail to parse with
`INVALID_ARGUMENT`, the threshold is 0.1 and 11/100 exceeds it, yet the batch function returns
`Status::OK()`; so does a batch of one failing row under the same threshold. -/
theorem batch_11_of_100_failed_returns_OK :
    rows_100_failing_11.length = 100 ∧
    rows_failed sample_json example_is_nothing empty_column rows_100_failing_11 = 11 ∧
    (1 / 10 : ℚ) < (11 : ℚ) / (100 : ℚ) ∧
    (parse_json_to_variant_batch sample_json example_is_nothing empty_column
      rows_100_failing_11 (1 / 10) (List.replicate 100 1)).result = Outcome.returned Status.OK ∧
    (parse_json_to_variant sample_json example_is_nothing empty_column "oops").outcome =
      Outcome.threw ⟨ErrorCode.INVALID_ARGUMENT, "Failed to parse object oops"⟩ ∧
    (parse_json_to_variant_batch sample_json example_is_nothing empty_column
      ["oops"] (1 / 10) [1]).result = Outcome.returned Status.OK := by
  refine ⟨by decide, ?_, by norm_num, ?_, by decide, ?_⟩
  · rw [rows_failed_eq_count]
    decide
  · rw [batch_eq_when_pos _ _ _ _ _ _ (by norm_num)]
    decide
  · rw [batch_eq_when_pos _ _ _ _ _ _ (by norm_num)]
    decide

/-- C2: whenever the batch function returns `Status::OK()` (the filter having a byte for every
row), `filter[i]` is 1 if row `i` parsed and 0 if it failed, the row count of the variant
column has grown by the number of rows with `filter[i] = 1`, and the rows with `filter[i] = 0`
are as many as the rows that failed. -/
theorem batch_OK_filter_and_row_count {Field : Type} (parser : JSONDataParser Field)
    (is_nothing : Field → Bool) (column : ColumnObject Field) (raw_json_column : List String)
    (max_filter_ratio : ℚ) (filter : List Nat)
    (hlen : raw_json_column.length ≤ filter.length)
    (hok : (parse_json_to_variant_batch parser is_nothing column raw_json_column
      max_filter_ratio filter).result = Outcome.returned Status.OK) :
    (∀ i, i < raw_json_column.length →
      (parse_json_to_variant_batch parser is_nothing column raw_json_column max_filter_ratio
        filter).filter[i]? =
          some (if row_parses parser is_nothing column raw_json_column i then 1 else 0)) ∧
    (parse_json_to_variant_batch parser is_nothing column raw_json_column max_filter_ratio
      filter).column.num_rows =
        column.num_rows +
          ((parse_json_to_variant_batch parser is_nothing column raw_json_column
            max_filter_ratio filter).filter.take raw_json_column.length).count 1 ∧
    ((parse_json_to_variant_batch parser is_nothing column raw_json_column
      max_filter_ratio filter).filter.take raw_json_column.length).count 0 =
        rows_failed parser is_nothing column raw_json_column := by
  have htake := batch_OK_filter_take parser is_nothing column raw_json_column max_filter_ratio
    filter hlen hok
  refine ⟨?_, ?_, ?_⟩
  · intro i hi
    have h1 : ((parse_json_to_variant_batch parser is_nothing column raw_json_column
        max_filter_ratio filter).filter.take raw_json_column.length)[i]? =
        (parse_json_to_variant_batch parser is_nothing column raw_json_column
          max_filter_ratio filter).filter[i]? := List.getElem?_take_of_lt hi
    rw [← h1, htake, row_flags_eq_map, List.map_map, List.getElem?_map,
      List.getElem?_range hi]
    rfl
  · rw [htake, count_one_filter_byte]
    unfold parse_json_to_variant_batch at hok ⊢
    exact (parse_rows_OK parser is_nothing raw_json_column.length max_filter_ratio
      raw_json_column 0 column filter 0 hok (by omega)).2.2
  · rw [htake, count_zero_filter_byte, rows_failed_eq_count]

set_option maxRecDepth 100000 in
/-- C2 at a batch of 100 rows with 9 failures under the threshold 0.1: the result is
`Status::OK()`, 9 rows are marked filtered and 91 rows are added. -/
theorem batch_OK_filter_and_row_count_witness :
    rows_100_failing_9.length ≤ (List.replicate 100 1).length ∧
    (parse_json_to_variant_batch sample_json example_is_nothing empty_column
      rows_100_failing_9 (1 / 10) (List.replicate 100 1)).result = Outcome.returned Status.OK ∧
    rows_failed sample_json example_is_nothing empty_column rows_100_failing_9 = 9 ∧
    (parse_json_to_variant_batch sample_json example_is_nothing empty_column
      rows_100_failing_9 (1 / 10) (List.replicate 100 1)).column.num_rows = 91 ∧
    ((∀ i, i < rows_100_failing_9.length →
      (parse_json_to_variant_batch sample_json example_is_nothing empty_column
        rows_100_failing_9 (1 / 10) (List.replicate 100 1)).filter[i]? =
          some (if row_parses sample_json example_is_nothing empty_column
            rows_100_failing_9 i then 1 else 0)) ∧
    (parse_json_to_variant_batch sample_json example_is_nothing empty_column
      rows_100_failing_9 (1 / 10) (List.replicate 100 1)).column.num_rows =
        empty_column.num_rows +
          ((parse_json_to_variant_batch sample_json example_is_nothing empty_column
            rows_100_failing_9 (1 / 10) (List.replicate 100 1)).filter.take
              rows_100_failing_9.length).count 1 ∧
    ((parse_json_to_variant_batch sample_json example_is_nothing empty_column
      rows_100_failing_9 (1 / 10) (List.replicate 100 1)).filter.take
        rows_100_failing_9.length).count 0 =
        rows_failed sample_json example_is_nothing empty_column rows_100_failing_9) := by
  have hlen : rows_100_failing_9.length ≤ (List.replicate 100 1).length := by decide
  have hok : (parse_json_to_variant_batch sample_json example_is_nothing empty_column
      rows_100_failing_9 (1 / 10) (List.replicate 100 1)).result =
      Outcome.returned Status.OK := by
    rw [batch_eq_when_pos _ _ _ _ _ _ (by norm_num)]
    decide
  refine ⟨hlen, hok, ?_, ?_, ?_⟩
  · rw [rows_failed_eq_count]
    decide
  · rw [batch_eq_when_pos _ _ _ _ _ _ (by norm_num)]
    decide
  · exact batch_OK_filter_and_row_count sample_json example_is_nothing empty_column
      rows_100_failing_9 (1 / 10) (List.replicate 100 1) hlen hok

/-- C3, the code at the failing input: the local `parse_failed` is 0 whenever the batch
function is left.  In a batch of three rows that all fail and are filtered it is 0 after the
last row, so the ratio compared with the threshold is 0 in every turn; and the `Aborted` status
of a batch whose only row fails under the threshold 0 reports 0 filtered rows of 1. -/
theorem parse_failed_stays_zero :
    (∀ (parser : JSONDataParser Int) (is_nothing : Int → Bool) (column : ColumnObject Int)
      (rows : List String) (max_filter_ratio : ℚ) (filter : List Nat),
      (parse_json_to_variant_batch parser is_nothing column rows max_filter_ratio
        filter).parse_failed = 0) ∧
    rows_failed sample_json example_is_nothing empty_column ["oops", "oops", "oops"] = 3 ∧
    (parse_json_to_variant_batch sample_json example_is_nothing empty_column
      ["oops", "oops", "oops"] (1 / 10) [1, 1, 1]).filter = [0, 0, 0] ∧
    (parse_json_to_variant_batch sample_json example_is_nothing empty_column
      ["oops", "oops", "oops"] (1 / 10) [1, 1, 1]).result = Outcome.returned Status.OK ∧
    (parse_json_to_variant_batch sample_json example_is_nothing empty_column
      ["oops", "oops", "oops"] (1 / 10) [1, 1, 1]).parse_failed = 0 ∧
    (parse_json_to_variant_batch sample_json example_is_nothing empty_column
      ["oops"] 0 [1]).result = Outcome.returned (Status.Aborted 0 1) := by
  refine ⟨?_, ?_, ?_, ?_, ?_, ?_⟩
  · intro parser is_nothing column rows max_filter_ratio filter
    exact parse_rows_parse_failed parser is_nothing rows.length max_filter_ratio rows 0 column
      filter 0
  · rw [rows_failed_eq_count]
    decide
  · rw [batch_eq_when_pos _ _ _ _ _ _ (by norm_num)]
    decide
  · rw [batch_eq_when_pos _ _ _ _ _ _ (by norm_num)]
    decide
  · rw [batch_eq_when_pos _ _ _ _ _ _ (by norm_num)]
    decide
  · rw [batch_eq_when_nonpos _ _ _ _ _ _ (le_refl 0)]
    decide

/-- C7: the single-row function treats an empty string as an empty object.  For every column
and every input of length 0 it returns without raising, keeps the subcolumns it found and
adds none, appends one default value to each of them, adds one to the row count, and does the
same whatever the parser is. -/
theorem empty_string_is_empty_object {Field : Type} (parser : JSONDataParser Field)
    (is_nothing : Field → Bool) (column : ColumnObject Field) (src : String)
    (hlen : src.length = 0) :
    (parse_json_to_variant parser is_nothing column src).outcome = Outcome.returned () ∧
    (parse_json_to_variant parser is_nothing column src).column.subcolumns =
      column.subcolumns.map (fun e => ⟨e.path, ⟨e.data.data ++ [none]⟩⟩) ∧
    (parse_json_to_variant parser is_nothing column src).column.num_rows =
      column.num_rows + 1 ∧
    (∀ other : JSONDataParser Field,
      parse_json_to_variant other is_nothing column src =
        parse_json_to_variant parser is_nothing column src) := by
  have h : ¬ src.length > 0 := by omega
  refine ⟨?_, ?_, ?_, ?_⟩
  · simp [parse_json_to_variant, h, insert_values]
  · simp [parse_json_to_variant, h, insert_values, insert_defaults, ColumnObject.incr_num_rows,
      Subcolumn.insertDefault]
  · simp [parse_json_to_variant, h, insert_values, insert_defaults, ColumnObject.incr_num_rows]
  · intro other
    simp [parse_json_to_variant, h]

/-- C7 at the empty string and a column of one row with the subcolumn `b`, with a parser that
rejects every input. -/
theorem empty_string_is_empty_object_witness :
    ("" : String).length = 0 ∧
    parse_json_to_variant (JSONDataParser.mk (fun _ => (none : Option (ParseResult Int))))
      example_is_nothing ⟨[⟨⟨"b"⟩, ⟨[some 5]⟩⟩], 1⟩ "" =
        ⟨⟨[⟨⟨"b"⟩, ⟨[some 5, none]⟩⟩], 2⟩, Outcome.returned ()⟩ ∧
    ((parse_json_to_variant (JSONDataParser.mk (fun _ => (none : Option (ParseResult Int))))
        example_is_nothing ⟨[⟨⟨"b"⟩, ⟨[some 5]⟩⟩], 1⟩ "").outcome = Outcome.returned () ∧
    (parse_json_to_variant (JSONDataParser.mk (fun _ => (none : Option (ParseResult Int))))
        example_is_nothing ⟨[⟨⟨"b"⟩, ⟨[some 5]⟩⟩], 1⟩ "").column.subcolumns =
      (ColumnObject.mk [⟨⟨"b"⟩, ⟨[some 5]⟩⟩] 1).subcolumns.map
        (fun e => ⟨e.path, ⟨e.data.data ++ [none]⟩⟩) ∧
    (parse_json_to_variant (JSONDataParser.mk (fun _ => (none : Option (ParseResult Int))))
        example_is_nothing ⟨[⟨⟨"b"⟩, ⟨[some 5]⟩⟩], 1⟩ "").column.num_rows =
      (ColumnObject.mk [⟨⟨"b"⟩, ⟨[some 5]⟩⟩] 1).num_rows + 1 ∧
    (∀ other : JSONDataParser Int,
      parse_json_to_variant other example_is_nothing ⟨[⟨⟨"b"⟩, ⟨[some 5]⟩⟩], 1⟩ "" =
        parse_json_to_variant (JSONDataParser.mk (fun _ => (none : Option (ParseResult Int))))
          example_is_nothing ⟨[⟨⟨"b"⟩, ⟨[some 5]⟩⟩], 1⟩ "")) :=
  ⟨rfl, rfl,
    empty_string_is_empty_object (JSONDataParser.mk (fun _ => (none : Option (ParseResult Int))))
      example_is_nothing ⟨[⟨⟨"b"⟩, ⟨[some 5]⟩⟩], 1⟩ "" rfl⟩

/-! ### `SimpleObjectPool` -/

/-- C12: `SimpleObjectPool::get(f)`.  On a non-empty stack it returns the object on top,
removes exactly that object and does not call `f`; the top is the object released most
recently.  On an empty stack it returns the object of one call of `f` and leaves the stack
empty. -/
theorem SimpleObjectPool_get_spec {T W : Type} (f : W → T × W) (world : W) :
    (∀ (top : T) (rest : List T),
      SimpleObjectPool.get ⟨top :: rest⟩ f world = (⟨top⟩, ⟨rest⟩, world)) ∧
    (∀ (pool : SimpleObjectPool T) (released : T),
      SimpleObjectPool.get (pool.Deleter released) f world = (⟨released⟩, pool, world)) ∧
    SimpleObjectPool.get (⟨[]⟩ : SimpleObjectPool T) f world =
      (⟨(f world).1⟩, ⟨[]⟩, (f world).2) :=
  ⟨fun _ _ => rfl, fun _ _ => rfl, rfl⟩

/-- Taking the `k`-th element out of a list and putting it in front rearranges the list. -/
theorem perm_cons_eraseIdx {α : Type} (l : List α) :
    ∀ (k : Nat) (a : α), l[k]? = some a → List.Perm (a :: l.eraseIdx k) l := by
  induction l with
  | nil => intro k a h; simp at h
  | cons b rest ih =>
    intro k a h
    cases k with
    | zero =>
      simp only [List.getElem?_cons_zero, Option.some.injEq] at h
      subst h
      exact List.Perm.refl _
    | succ j =>
      simp only [List.getElem?_cons_succ] at h
      simp only [List.eraseIdx_cons_succ]
      exact (List.Perm.swap b a _).trans ((ih j a h).cons b)

/-- One operation keeps every allocated object in exactly one place. -/
theorem PoolUse_step_perm (s : PoolUse) (op : PoolOp)
    (h : List.Perm (s.pool.stack ++ s.outstanding.map Pointer.object)
      (List.range s.heap.allocated)) :
    List.Perm ((s.step op).pool.stack ++ (s.step op).outstanding.map Pointer.object)
      (List.range (s.step op).heap.allocated) := by
  obtain ⟨⟨stack⟩, outstanding, ⟨allocated⟩⟩ := s
  cases op with
  | get =>
    cases stack with
    | nil =>
      simp only [PoolUse.step, SimpleObjectPool.get, new_object, List.nil_append, List.map_cons]
        at h ⊢
      rw [List.range_succ]
      exact (List.perm_append_singleton _ _).symm.trans (h.append_right _)
    | cons top rest =>
      simp only [PoolUse.step, SimpleObjectPool.get, List.map_cons] at h ⊢
      exact List.perm_middle.trans h
  | release k =>
    simp only [PoolUse.step]
    cases hk : outstanding[k]? with
    | none => simpa using h
    | some p =>
      simp only [SimpleObjectPool.Deleter, List.cons_append]
      refine List.Perm.trans ?_ h
      have h1 : List.Perm (p.object :: (outstanding.eraseIdx k).map Pointer.object)
          (outstanding.map Pointer.object) := by
        have := (perm_cons_eraseIdx outstanding k p hk).map Pointer.object
        simpa using this
      exact List.perm_middle.symm.trans (h1.append_left stack)

/-- After any sequence of operations every allocated object is in exactly one place. -/
theorem PoolUse_run_perm (ops : List PoolOp) :
    List.Perm ((PoolUse.run ops).pool.stack ++ (PoolUse.run ops).outstanding.map Pointer.object)
      (List.range (PoolUse.run ops).heap.allocated) := by
  unfold PoolUse.run
  suffices h : ∀ (s : PoolUse),
      List.Perm (s.pool.stack ++ s.outstanding.map Pointer.object)
        (List.range s.heap.allocated) →
      List.Perm ((ops.foldl PoolUse.step s).pool.stack ++
        (ops.foldl PoolUse.step s).outstanding.map Pointer.object)
        (List.range (ops.foldl PoolUse.step s).heap.allocated) by
    exact h PoolUse.init (by simp [PoolUse.init])
  induction ops with
  | nil => intro s h; exact h
  | cons op rest ih =>
    intro s h
    exact ih (s.step op) (PoolUse_step_perm s op h)

/-- C13: in every state reached from a new pool by `get` and release operations, the objects
in the stack together with those held by outstanding pointers are exactly the objects the
factory has created, each once; so their numbers add up to the number of factory calls; and
releasing a pointer pushes its object on the stack and takes it from the outstanding ones. -/
theorem SimpleObjectPool_conserves_objects (ops : List PoolOp) :
    List.Perm ((PoolUse.run ops).pool.stack ++ (PoolUse.run ops).outstanding.map Pointer.object)
      (List.range (PoolUse.run ops).heap.allocated) ∧
    List.Nodup ((PoolUse.run ops).pool.stack ++
      (PoolUse.run ops).outstanding.map Pointer.object) ∧
    (∀ object : Nat, object < (PoolUse.run ops).heap.allocated ↔
      object ∈ (PoolUse.run ops).pool.stack ++
        (PoolUse.run ops).outstanding.map Pointer.object) ∧
    (PoolUse.run ops).pool.stack.length + (PoolUse.run ops).outstanding.length =
      (PoolUse.run ops).heap.allocated ∧
    (∀ (k : Nat) (p : Pointer Nat), (PoolUse.run ops).outstanding[k]? = some p →
      ((PoolUse.run ops).step (PoolOp.release k)).pool.stack =
        p.object :: (PoolUse.run ops).pool.stack ∧
      ((PoolUse.run ops).step (PoolOp.release k)).outstanding =
        (PoolUse.run ops).outstanding.eraseIdx k ∧
      ((PoolUse.run ops).step (PoolOp.release k)).heap = (PoolUse.run ops).heap) := by
  have hperm := PoolUse_run_perm ops
  refine ⟨hperm, ?_, ?_, ?_, ?_⟩
  · exact hperm.nodup_iff.mpr (List.nodup_range _)
  · intro object
    rw [hperm.mem_iff, List.mem_range]
  · have := hperm.length_eq
    simpa using this
  · intro k p hk
    simp [PoolUse.step, hk, SimpleObjectPool.Deleter]

/-! ### `DataTypeIPv6SerDe` -/

namespace serde

/-- C15: `_write_column_to_mysql` makes the pushes the claim lists, in order, up to the first
one that returns non-zero: wrapper, value, wrapper when `_nesting_level >= 2` and
`wrapper_len > 0`, otherwise the value alone; the result is OK when every push returned 0 and
`InternalError("pack mysql buffer failed.")` otherwise.  The binary and the text overload are
this same function. -/
theorem write_column_to_mysql_wraps_symmetrically {B : Type} (self : DataTypeIPv6SerDe)
    (column : List Nat) (result : B) (row_idx : Nat) (col_const : Bool)
    (options : FormatOptions) :
    (∀ (is_binary_format : Bool) (buffer : MysqlRowBuffer is_binary_format B),
      self._write_column_to_mysql buffer column result row_idx col_const options =
        push_in_order buffer result
          (pushes_wanted self options (column.getD (index_check_const row_idx col_const) 0))) ∧
    (∀ (push_string : B → String → Int → Int × B) (push_ipv6 : B → Nat → Int × B),
      self.write_column_to_mysql_binary ⟨push_string, push_ipv6⟩ column result row_idx col_const
          options =
        self.write_column_to_mysql_text ⟨push_string, push_ipv6⟩ column result row_idx col_const
          options) ∧
    (∀ (buffer : MysqlRowBuffer true B),
      self.write_column_to_mysql_binary buffer column result row_idx col_const options =
        self._write_column_to_mysql buffer column result row_idx col_const options) ∧
    (∀ (buffer : MysqlRowBuffer false B),
      self.write_column_to_mysql_text buffer column result row_idx col_const options =
        self._write_column_to_mysql buffer column result row_idx col_const options) := by
  refine ⟨?_, fun _ _ => rfl, fun _ => rfl, fun _ => rfl⟩
  intro is_binary_format buffer
  unfold DataTypeIPv6SerDe._write_column_to_mysql pushes_wanted
  by_cases hw : self._nesting_level ≥ 2 ∧ options.wrapper_len > 0
  · simp only [hw, and_self, if_true, push_in_order, MysqlRowBuffer.push]
    by_cases h1 : (buffer.push_string result options.nested_string_wrapper
        options.wrapper_len).1 = 0
    · simp only [h1, ne_eq, not_true_eq_false, if_false, if_true]
      by_cases h2 : (buffer.push_ipv6 (buffer.push_string result options.nested_string_wrapper
          options.wrapper_len).2
          (column.getD (index_check_const row_idx col_const) 0)).1 = 0
      · simp only [h2, ne_eq, not_true_eq_false, if_false, if_true]
        split <;> rename_i h3
        · have h3 : ¬ (buffer.push_string (buffer.push_ipv6 (buffer.push_string result
              options.nested_string_wrapper options.wrapper_len).2
              (column.getD (index_check_const row_idx col_const) 0)).2
              options.nested_string_wrapper options.wrapper_len).1 = 0 := fun h => h3 h.symm
          simp only [h3, if_false]
        · have h3 : (buffer.push_string (buffer.push_ipv6 (buffer.push_string result
              options.nested_string_wrapper options.wrapper_len).2
              (column.getD (index_check_const row_idx col_const) 0)).2
              options.nested_string_wrapper options.wrapper_len).1 = 0 := by
            by_contra h
            exact h3 (fun h4 => h h4.symm)
          simp only [h3, if_true]
      · have h2n : (0 : Int) ≠ (buffer.push_ipv6 (buffer.push_string result
            options.nested_string_wrapper options.wrapper_len).2
            (column.getD (index_check_const row_idx col_const) 0)).1 := fun h => h2 h.symm
        simp only [h2, h2n, ne_eq, if_false, if_true, not_false_eq_true]
    · have h1n : (0 : Int) ≠ (buffer.push_string result options.nested_string_wrapper
          options.wrapper_len).1 := fun h => h1 h.symm
      simp only [h1, h1n, ne_eq, if_false, if_true, not_false_eq_true]
  · simp only [hw, if_false, push_in_order, MysqlRowBuffer.push]
    by_cases h2 : (buffer.push_ipv6 result
        (column.getD (index_check_const row_idx col_const) 0)).1 = 0
    · simp only [h2, ne_eq, not_true_eq_false, if_false, if_true]
    · have h2n : (0 : Int) ≠ (buffer.push_ipv6 result
          (column.getD (index_check_const row_idx col_const) 0)).1 := fun h => h2 h.symm
      simp only [h2, h2n, ne_eq, if_false, if_true, not_false_eq_true]

end serde

end vectorized

/-! ### The partition router -/

/-- After `emplace` on an absent key the key holds the value. -/
theorem unordered_map_find_emplace_self {K V : Type} [DecidableEq K] (m : unordered_map K V)
    (k : K) (v : V) (h : unordered_map.find m k = none) :
    unordered_map.find (unordered_map.emplace m k v) k = some v := by
  unfold unordered_map.emplace
  rw [h]
  simp [unordered_map.find]

/-- An `emplace` never changes what a present key holds. -/
theorem unordered_map_find_emplace_of_some {K V : Type} [DecidableEq K] (m : unordered_map K V)
    (k k1 : K) (t v : V) (h : unordered_map.find m k = some t) :
    unordered_map.find (unordered_map.emplace m k1 v) k = some t := by
  unfold unordered_map.emplace
  cases h1 : unordered_map.find m k1 with
  | some w => simpa using h
  | none =>
    have hne : ¬ k1 = k := by
      intro heq
      rw [heq, h] at h1
      exact Option.noConfusion h1
    simp only [unordered_map.find, List.find?_cons, hne, decide_False] at h ⊢
    exact h

namespace stream_load

/-- In PER_SINK mode no event changes the mode or the tablet cached for a partition. -/
theorem route_event_keeps_cached {Row : Type}
    (find_partition : Row → Option VOlapTablePartition) (hash : Row → Nat) (choose : Nat → Nat)
    (tolerate_unmatched : Bool) (s : TabletRouter) (id : Int) (t : Nat)
    (event : RouterEvent Row)
    (hmode : s.findTabletMode = FindTabletMode.FIND_TABLET_EVERY_SINK)
    (hcached : unordered_map.find s._partition_to_tablet_map id = some t) :
    (VOlapTableSinkV2.route_event find_partition hash choose tolerate_unmatched s
      event).findTabletMode = FindTabletMode.FIND_TABLET_EVERY_SINK ∧
    unordered_map.find (VOlapTableSinkV2.route_event find_partition hash choose
      tolerate_unmatched s event)._partition_to_tablet_map id = some t := by
  obtain ⟨mode, map, made⟩ := s
  simp only at hmode hcached
  subst hmode
  cases event with
  | batch => exact ⟨rfl, hcached⟩
  | row r =>
    simp only [VOlapTableSinkV2.route_event, VOlapTableSinkV2.find_tablet]
    cases find_partition r with
    | none => exact ⟨rfl, hcached⟩
    | some partition =>
      by_cases hr : partition.random_distribution = true
      · simp only [hr, if_true]
        cases hf : unordered_map.find map partition.id with
        | some cached => exact ⟨rfl, hcached⟩
        | none =>
          exact ⟨rfl, unordered_map_find_emplace_of_some _ _ _ _ _ hcached⟩
      · have hr2 : partition.random_distribution = false := by simpa using hr
        simp only [hr2, Bool.false_eq_true, if_false]
        exact ⟨trivial, hcached⟩

/-- In PER_SINK mode no sequence of events changes the mode or the tablet cached for a
partition. -/
theorem route_events_keep_cached {Row : Type}
    (find_partition : Row → Option VOlapTablePartition) (hash : Row → Nat) (choose : Nat → Nat)
    (tolerate_unmatched : Bool) (id : Int) (t : Nat) (events : List (RouterEvent Row)) :
    ∀ s : TabletRouter, s.findTabletMode = FindTabletMode.FIND_TABLET_EVERY_SINK →
      unordered_map.find s._partition_to_tablet_map id = some t →
      (VOlapTableSinkV2.route_events find_partition hash choose tolerate_unmatched s
        events).findTabletMode = FindTabletMode.FIND_TABLET_EVERY_SINK ∧
      unordered_map.find (VOlapTableSinkV2.route_events find_partition hash choose
        tolerate_unmatched s events)._partition_to_tablet_map id = some t := by
  induction events with
  | nil => intro s hmode hcached; exact ⟨hmode, hcached⟩
  | cons event rest ih =>
    intro s hmode hcached
    obtain ⟨h1, h2⟩ := route_event_keeps_cached find_partition hash choose tolerate_unmatched
      s id t event hmode hcached
    exact ih _ h1 h2

/-- In PER_SINK mode a call for a row of a random-distribution partition leaves the tablet it
returns in the cache. -/
theorem find_tablet_caches {Row : Type}
    (find_partition : Row → Option VOlapTablePartition) (hash : Row → Nat) (choose : Nat → Nat)
    (tolerate_unmatched : Bool) (s : TabletRouter) (partition : VOlapTablePartition) (row : Row)
    (hmode : s.findTabletMode = FindTabletMode.FIND_TABLET_EVERY_SINK)
    (hrow : find_partition row = some partition)
    (hrandom : partition.random_distribution = true) :
    (VOlapTableSinkV2.find_tablet find_partition hash choose tolerate_unmatched s
      row).2.findTabletMode = FindTabletMode.FIND_TABLET_EVERY_SINK ∧
    unordered_map.find (VOlapTableSinkV2.find_tablet find_partition hash choose
      tolerate_unmatched s row).2._partition_to_tablet_map partition.id =
      some (VOlapTableSinkV2.find_tablet find_partition hash choose tolerate_unmatched s
        row).1.tablet_index := by
  obtain ⟨mode, map, made⟩ := s
  simp only at hmode
  subst hmode
  simp only [VOlapTableSinkV2.find_tablet, hrow, hrandom, if_true]
  cases hf : unordered_map.find map partition.id with
  | some cached => exact ⟨rfl, hf⟩
  | none => exact ⟨rfl, unordered_map_find_emplace_self _ _ _ hf⟩

/-- In PER_SINK mode a call for a row of a random-distribution partition whose tablet is
cached returns the cached tablet and changes nothing. -/
theorem find_tablet_of_cached {Row : Type}
    (find_partition : Row → Option VOlapTablePartition) (hash : Row → Nat) (choose : Nat → Nat)
    (tolerate_unmatched : Bool) (s : TabletRouter) (partition : VOlapTablePartition) (row : Row)
    (t : Nat) (hmode : s.findTabletMode = FindTabletMode.FIND_TABLET_EVERY_SINK)
    (hrow : find_partition row = some partition)
    (hrandom : partition.random_distribution = true)
    (hcached : unordered_map.find s._partition_to_tablet_map partition.id = some t) :
    VOlapTableSinkV2.find_tablet find_partition hash choose tolerate_unmatched s row =
      (⟨some partition, t, false, false⟩, s) := by
  obtain ⟨mode, map, made⟩ := s
  simp only at hmode hcached
  subst hmode
  simp only [VOlapTableSinkV2.find_tablet, hrow, hrandom, if_true, hcached]

/-- C11: in FIND_TABLET_EVERY_SINK mode, once `find_tablet` has been called for a row of a
random-distribution partition, every later call for a row of the same partition, after any
rows and batches in between, returns the tablet of the first call; it takes that tablet from
`_partition_to_tablet_map` and computes nothing (the router is left as found, no
pseudo-random choice is made). -/
theorem find_tablet_stable_per_sink {Row : Type}
    (find_partition : Row → Option VOlapTablePartition) (hash : Row → Nat) (choose : Nat → Nat)
    (tolerate_unmatched : Bool) (s : TabletRouter) (partition : VOlapTablePartition)
    (first later : Row) (events : List (RouterEvent Row))
    (hmode : s.findTabletMode = FindTabletMode.FIND_TABLET_EVERY_SINK)
    (hfirst : find_partition first = some partition)
    (hlater : find_partition later = some partition)
    (hrandom : partition.random_distribution = true) :
    (VOlapTableSinkV2.find_tablet find_partition hash choose tolerate_unmatched
      (VOlapTableSinkV2.route_events find_partition hash choose tolerate_unmatched
        (VOlapTableSinkV2.find_tablet find_partition hash choose tolerate_unmatched s first).2
        events) later).1.tablet_index =
      (VOlapTableSinkV2.find_tablet find_partition hash choose tolerate_unmatched s
        first).1.tablet_index ∧
    unordered_map.find (VOlapTableSinkV2.route_events find_partition hash choose
        tolerate_unmatched
        (VOlapTableSinkV2.find_tablet find_partition hash choose tolerate_unmatched s first).2
        events)._partition_to_tablet_map partition.id =
      some (VOlapTableSinkV2.find_tablet find_partition hash choose tolerate_unmatched s
        first).1.tablet_index ∧
    (VOlapTableSinkV2.find_tablet find_partition hash choose tolerate_unmatched
      (VOlapTableSinkV2.route_events find_partition hash choose tolerate_unmatched
        (VOlapTableSinkV2.find_tablet find_partition hash choose tolerate_unmatched s first).2
        events) later).2 =
      VOlapTableSinkV2.route_events find_partition hash choose tolerate_unmatched
        (VOlapTableSinkV2.find_tablet find_partition hash choose tolerate_unmatched s first).2
        events := by
  obtain ⟨h1, h2⟩ := find_tablet_caches find_partition hash choose tolerate_unmatched s
    partition first hmode hfirst hrandom
  obtain ⟨h3, h4⟩ := route_events_keep_cached find_partition hash choose tolerate_unmatched
    partition.id _ events _ h1 h2
  have h5 := find_tablet_of_cached find_partition hash choose tolerate_unmatched _ partition
    later _ h3 hlater hrandom h4
  refine ⟨?_, h4, ?_⟩
  · rw [h5]
  · rw [h5]

/-- C11 at a sink in PER_SINK mode with an empty cache: row 1 of partition 7 gets tablet 2;
after a row of partition 8, a new batch, another row of partition 7, an unmatched row and one
more batch, row 2 of partition 7 gets tablet 2 again. -/
theorem find_tablet_stable_per_sink_witness :
    (TabletRouter.mk FindTabletMode.FIND_TABLET_EVERY_SINK [] 0).findTabletMode =
      FindTabletMode.FIND_TABLET_EVERY_SINK ∧
    sample_find_partition 1 = some ⟨7, 4, true⟩ ∧
    sample_find_partition 2 = some ⟨7, 4, true⟩ ∧
    (VOlapTablePartition.mk 7 4 true).random_distribution = true ∧
    (VOlapTableSinkV2.find_tablet sample_find_partition id sample_choose true
      (TabletRouter.mk FindTabletMode.FIND_TABLET_EVERY_SINK [] 0) 1).1.tablet_index = 2 ∧
    ((VOlapTableSinkV2.find_tablet sample_find_partition id sample_choose true
      (VOlapTableSinkV2.route_events sample_find_partition id sample_choose true
        (VOlapTableSinkV2.find_tablet sample_find_partition id sample_choose true
          (TabletRouter.mk FindTabletMode.FIND_TABLET_EVERY_SINK [] 0) 1).2
        sample_events) 2).1.tablet_index =
      (VOlapTableSinkV2.find_tablet sample_find_partition id sample_choose true
        (TabletRouter.mk FindTabletMode.FIND_TABLET_EVERY_SINK [] 0) 1).1.tablet_index ∧
    unordered_map.find (VOlapTableSinkV2.route_events sample_find_partition id sample_choose
        true
        (VOlapTableSinkV2.find_tablet sample_find_partition id sample_choose true
          (TabletRouter.mk FindTabletMode.FIND_TABLET_EVERY_SINK [] 0) 1).2
        sample_events)._partition_to_tablet_map (VOlapTablePartition.mk 7 4 true).id =
      some (VOlapTableSinkV2.find_tablet sample_find_partition id sample_choose true
        (TabletRouter.mk FindTabletMode.FIND_TABLET_EVERY_SINK [] 0) 1).1.tablet_index ∧
    (VOlapTableSinkV2.find_tablet sample_find_partition id sample_choose true
      (VOlapTableSinkV2.route_events sample_find_partition id sample_choose true
        (VOlapTableSinkV2.find_tablet sample_find_partition id sample_choose true
          (TabletRouter.mk FindTabletMode.FIND_TABLET_EVERY_SINK [] 0) 1).2
        sample_events) 2).2 =
      VOlapTableSinkV2.route_events sample_find_partition id sample_choose true
        (VOlapTableSinkV2.find_tablet sample_find_partition id sample_choose true
          (TabletRouter.mk FindTabletMode.FIND_TABLET_EVERY_SINK [] 0) 1).2
        sample_events) :=
  ⟨rfl, by decide, by decide, rfl, by decide,
    find_tablet_stable_per_sink sample_find_partition id sample_choose true
      (TabletRouter.mk FindTabletMode.FIND_TABLET_EVERY_SINK [] 0) ⟨7, 4, true⟩ 1 2
      sample_events rfl (by decide) (by decide) rfl⟩

/-- For contrast, in PER_BATCH mode the same calls give tablet 2 first and tablet 1 later: the
stability comes from the mode. -/
theorem find_tablet_per_batch_example :
    (VOlapTableSinkV2.find_tablet sample_find_partition id sample_choose true
      (TabletRouter.mk FindTabletMode.FIND_TABLET_EVERY_BATCH [] 0) 1).1.tablet_index = 2 ∧
    (VOlapTableSinkV2.find_tablet sample_find_partition id sample_choose true
      (VOlapTableSinkV2.route_events sample_find_partition id sample_choose true
        (VOlapTableSinkV2.find_tablet sample_find_partition id sample_choose true
          (TabletRouter.mk FindTabletMode.FIND_TABLET_EVERY_BATCH [] 0) 1).2
        sample_events) 2).1.tablet_index = 1 := by
  decide

end stream_load

namespace vectorized

/-! ### The row-count invariant of the single-row call -/

/-- Two paths are the same when `get_path` gives the same string. -/
theorem PathInData_eq_iff (p q : PathInData) : p = q ↔ p.get_path = q.get_path := by
  cases p; cases q
  simp [PathInData.get_path]

/-- Writing a subcolumn keeps the paths. -/
theorem store_subcolumn_paths {Field : Type} (p : PathInData) (sub : Subcolumn Field)
    (l : List (Entry Field)) :
    (store_subcolumn p sub l).map (fun e => e.path) = l.map (fun e => e.path) := by
  induction l with
  | nil => rfl
  | cons e rest ih =>
    simp only [store_subcolumn]
    split
    · rfl
    · simp only [List.map_cons, ih]

/-- Where every path occurs once, writing a subcolumn changes the entry of that path only. -/
theorem mem_store_subcolumn {Field : Type} (p : PathInData) (sub : Subcolumn Field)
    (l : List (Entry Field)) (hnodup : (l.map (fun e => e.path)).Nodup) (e1 : Entry Field)
    (h : e1 ∈ store_subcolumn p sub l) :
    (e1 ∈ l ∧ e1.path ≠ p) ∨ e1 = ⟨p, sub⟩ := by
  induction l with
  | nil => simp [store_subcolumn] at h
  | cons e rest ih =>
    simp only [List.map_cons, List.nodup_cons] at hnodup
    simp only [store_subcolumn] at h
    split at h
    · rename_i hp
      rcases List.mem_cons.mp h with h1 | h1
      · right
        rw [h1, hp]
      · left
        refine ⟨List.mem_cons_of_mem _ h1, ?_⟩
        intro heq
        apply hnodup.1
        rw [hp, ← heq]
        exact List.mem_map_of_mem (fun e => e.path) h1
    · rename_i hp
      rcases List.mem_cons.mp h with h1 | h1
      · left
        rw [h1]
        exact ⟨List.mem_cons_self _ _, hp⟩
      · rcases ih hnodup.2 h1 with ⟨h2, h3⟩ | h2
        · left
          exact ⟨List.mem_cons_of_mem _ h2, h3⟩
        · right
          exact h2

/-- A path has a subcolumn exactly when an entry carries it. -/
theorem has_subcolumn_iff {Field : Type} (c : ColumnObject Field) (p : PathInData) :
    c.has_subcolumn p = true ↔ p ∈ c.subcolumns.map (fun e => e.path) := by
  simp only [ColumnObject.has_subcolumn, List.any_eq_true, decide_eq_true_eq, List.mem_map]

/-- The subcolumn of a path that has one is the data of an entry with that path. -/
theorem get_subcolumn_of_has {Field : Type} (c : ColumnObject Field) (p : PathInData)
    (h : c.has_subcolumn p = true) :
    ∃ e, e ∈ c.subcolumns ∧ e.path = p ∧ c.get_subcolumn p = some e.data := by
  unfold ColumnObject.get_subcolumn
  cases hf : c.subcolumns.find? (fun e => decide (e.path = p)) with
  | none =>
    rw [List.find?_eq_none] at hf
    rw [has_subcolumn_iff, List.mem_map] at h
    obtain ⟨e, he, hp⟩ := h
    exact absurd (by simpa using hp) (hf e he)
  | some e =>
    refine ⟨e, List.mem_of_find?_eq_some hf, ?_, rfl⟩
    simpa using List.find?_some hf

/-- Adding the subcolumn of a new path keeps the column consistent. -/
theorem rows_consistent_add_sub_column {Field : Type} (num_rows : Nat) (paths_set : List String)
    (column : ColumnObject Field) (path : PathInData)
    (hcons : rows_consistent num_rows paths_set column)
    (hnew : ¬ column.has_subcolumn path = true) (hpath : path.get_path ∉ paths_set) :
    rows_consistent num_rows paths_set (column.add_sub_column path num_rows) ∧
    (column.add_sub_column path num_rows).has_subcolumn path = true := by
  rw [has_subcolumn_iff] at hnew
  refine ⟨⟨?_, ?_⟩, ?_⟩
  · simp only [ColumnObject.add_sub_column, List.map_append, List.map_cons, List.map_nil]
    rw [List.nodup_append]
    refine ⟨hcons.1, List.nodup_singleton _, ?_⟩
    intro a ha hb
    rw [List.mem_singleton] at hb
    exact hnew (hb ▸ ha)
  · intro e he
    simp only [ColumnObject.add_sub_column, List.mem_append, List.mem_singleton] at he
    rcases he with he | he
    · exact hcons.2 e he
    · rw [he]
      simp [hpath, Subcolumn.size, Subcolumn.with_size]
  · rw [has_subcolumn_iff]
    simp [ColumnObject.add_sub_column]

/-- Inserting a value under a path not yet inserted: the subcolumn is found, it has `num_rows`
values, and after the insertion the column is consistent with the path counted as inserted. -/
theorem rows_consistent_insert {Field : Type} (num_rows : Nat) (paths_set : List String)
    (column : ColumnObject Field) (path : PathInData) (value : Field)
    (hcons : rows_consistent num_rows paths_set column)
    (hhas : column.has_subcolumn path = true) (hpath : path.get_path ∉ paths_set) :
    ∃ sub, column.get_subcolumn path = some sub ∧ sub.size = num_rows ∧
      rows_consistent num_rows (path.get_path :: paths_set)
        (column.set_subcolumn path (sub.insert value)) := by
  obtain ⟨e, he, hp, hget⟩ := get_subcolumn_of_has column path hhas
  have hsize : e.data.size = num_rows := by
    have := hcons.2 e he
    rw [hp, if_neg hpath] at this
    exact this
  refine ⟨e.data, hget, hsize, ?_, ?_⟩
  · simp only [ColumnObject.set_subcolumn, store_subcolumn_paths]
    exact hcons.1
  · intro e1 he1
    simp only [ColumnObject.set_subcolumn] at he1
    rcases mem_store_subcolumn path _ _ hcons.1 e1 he1 with ⟨h1, h2⟩ | h1
    · have hne : ¬ e1.path.get_path = path.get_path := fun h => h2 ((PathInData_eq_iff _ _).mpr h)
      rw [hcons.2 e1 h1]
      simp only [List.mem_cons, hne, false_or]
    · rw [h1]
      simp [Subcolumn.size, Subcolumn.insert] at hsize ⊢
      exact hsize

/-- One turn of the loop for a value that is not of 'nothing' type under a path not yet
inserted: the assertion holds and the loop goes on with a consistent column. -/
theorem insert_values_cons_new {Field : Type} (is_nothing : Field → Bool) (num_rows : Nat)
    (path : PathInData) (value : Field) (rest : List (PathInData × Field))
    (paths_set : List String) (column : ColumnObject Field)
    (hcons : rows_consistent num_rows paths_set column)
    (hvalue : ¬ is_nothing value = true) (hpath : path.get_path ∉ paths_set) :
    ∃ column1 : ColumnObject Field,
      rows_consistent num_rows (path.get_path :: paths_set) column1 ∧
      insert_values is_nothing num_rows ((path, value) :: rest) paths_set column =
        insert_values is_nothing num_rows rest (path.get_path :: paths_set) column1 := by
  have hv : is_nothing value = false := by simpa using hvalue
  by_cases hhas : column.has_subcolumn path = true
  · obtain ⟨sub, hget, hsize, hnext⟩ :=
      rows_consistent_insert num_rows paths_set column path value hcons hhas hpath
    refine ⟨_, hnext, ?_⟩
    simp only [insert_values, hv, hpath, hhas, hget, hsize, if_true, if_false,
      Bool.false_eq_true]
  · obtain ⟨hcons1, hhas1⟩ :=
      rows_consistent_add_sub_column num_rows paths_set column path hcons hhas hpath
    obtain ⟨sub, hget, hsize, hnext⟩ :=
      rows_consistent_insert num_rows paths_set _ path value hcons1 hhas1 hpath
    refine ⟨_, hnext, ?_⟩
    have hhas2 : column.has_subcolumn path = false := by simpa using hhas
    simp only [insert_values, hv, hpath, hhas2, hget, hsize, if_true, if_false,
      Bool.false_eq_true]

/-- The loop over the parsed paths on a consistent column.  Either the paths of the values
that are not of 'nothing' type are pairwise different and none has been inserted before: then
the loop ends normally with a consistent column whose inserted paths are those and the ones
before.  Or it throws "Object has ambiguous path".  No assertion fails. -/
theorem insert_values_consistent {Field : Type} (is_nothing : Field → Bool) (num_rows : Nat)
    (l : List (PathInData × Field)) :
    ∀ (paths_set : List String) (column : ColumnObject Field),
      rows_consistent num_rows paths_set column →
      (((live_paths is_nothing l).Nodup ∧ (∀ k ∈ live_paths is_nothing l, k ∉ paths_set)) ∧
        (insert_values is_nothing num_rows l paths_set column).outcome = Outcome.returned () ∧
        rows_consistent num_rows (insert_values is_nothing num_rows l paths_set column).paths_set
          (insert_values is_nothing num_rows l paths_set column).column) ∨
      (¬ ((live_paths is_nothing l).Nodup ∧ (∀ k ∈ live_paths is_nothing l, k ∉ paths_set)) ∧
        ∃ p, (insert_values is_nothing num_rows l paths_set column).outcome =
          Outcome.threw ⟨ErrorCode.INVALID_ARGUMENT, "Object has ambiguous path " ++ p⟩) := by
  induction l with
  | nil =>
    intro paths_set column hcons
    left
    refine ⟨⟨by simp [live_paths], by simp [live_paths]⟩, rfl, hcons⟩
  | cons pv rest ih =>
    intro paths_set column hcons
    obtain ⟨path, value⟩ := pv
    by_cases hvalue : is_nothing value = true
    · have hl : live_paths is_nothing ((path, value) :: rest) = live_paths is_nothing rest := by
        simp [live_paths, List.filter_cons, hvalue]
      have hi : insert_values is_nothing num_rows ((path, value) :: rest) paths_set column =
          insert_values is_nothing num_rows rest paths_set column := by
        simp only [insert_values, hvalue, if_true]
      rw [hl, hi]
      exact ih paths_set column hcons
    · have hl : live_paths is_nothing ((path, value) :: rest) =
          path.get_path :: live_paths is_nothing rest := by
        simp [live_paths, List.filter_cons, hvalue]
      rw [hl]
      by_cases hpath : path.get_path ∈ paths_set
      · right
        refine ⟨fun h => h.2 _ (List.mem_cons_self _ _) hpath, path.get_path, ?_⟩
        have hv : is_nothing value = false := by simpa using hvalue
        simp only [insert_values, hv, hpath, if_true, if_false, Bool.false_eq_true]
      · obtain ⟨column1, hcons1, hi⟩ := insert_values_cons_new is_nothing num_rows path value
          rest paths_set column hcons hvalue hpath
        rw [hi]
        rcases ih (path.get_path :: paths_set) column1 hcons1 with ⟨⟨h1, h2⟩, h3⟩ | ⟨h1, h3⟩
        · left
          refine ⟨⟨?_, ?_⟩, h3⟩
          · rw [List.nodup_cons]
            exact ⟨fun hmem => h2 _ hmem (List.mem_cons_self _ _), h1⟩
          · intro k hk
            rcases List.mem_cons.mp hk with hk | hk
            · rw [hk]; exact hpath
            · exact fun hin => h2 k hk (List.mem_cons_of_mem _ hin)
        · right
          refine ⟨?_, h3⟩
          intro h
          apply h1
          rw [List.nodup_cons] at h
          refine ⟨h.1.2, ?_⟩
          intro k hk hin
          rcases List.mem_cons.mp hin with hin | hin
          · exact h.1.1 (hin ▸ hk)
          · exact h.2 k (List.mem_cons_of_mem _ hk) hin

/-- Entries whose value is of 'nothing' type have no effect on the loop. -/
theorem insert_values_skips_nothing {Field : Type} (is_nothing : Field → Bool) (num_rows : Nat)
    (l : List (PathInData × Field)) :
    ∀ (paths_set : List String) (column : ColumnObject Field),
      insert_values is_nothing num_rows l paths_set column =
        insert_values is_nothing num_rows (l.filter (fun pv => !is_nothing pv.2)) paths_set
          column := by
  induction l with
  | nil => intro paths_set column; rfl
  | cons pv rest ih =>
    intro paths_set column
    obtain ⟨path, value⟩ := pv
    by_cases hvalue : is_nothing value = true
    · simp only [List.filter_cons, hvalue, Bool.not_true, Bool.false_eq_true, if_false]
      simp only [insert_values, hvalue, if_true]
      exact ih paths_set column
    · have hv : is_nothing value = false := by simpa using hvalue
      simp only [List.filter_cons, hv, Bool.not_false, if_true]
      simp only [insert_values, hv, Bool.false_eq_true, if_false]
      split
      · rfl
      · split
        · rfl
        · split
          · exact ih _ _
          · rfl

/-- The default values complete a consistent column: every subcolumn has `num_rows + 1`
values and every path still has one subcolumn. -/
theorem insert_defaults_consistent {Field : Type} (num_rows : Nat) (paths_set : List String)
    (column : ColumnObject Field) (hcons : rows_consistent num_rows paths_set column) :
    (∀ e ∈ (insert_defaults paths_set column).subcolumns, e.data.size = num_rows + 1) ∧
    ((insert_defaults paths_set column).subcolumns.map (fun e => e.path)).Nodup := by
  constructor
  · intro e he
    simp only [insert_defaults, List.mem_map] at he
    obtain ⟨e0, he0, hf⟩ := he
    have h0 := hcons.2 e0 he0
    by_cases hin : e0.path.get_path ∈ paths_set
    · rw [if_pos hin] at hf h0
      rw [← hf]; exact h0
    · rw [if_neg hin] at hf h0
      rw [← hf]
      simp only [Subcolumn.size, Subcolumn.insertDefault, List.length_append,
        List.length_singleton] at h0 ⊢
      omega
  · have hp : (insert_defaults paths_set column).subcolumns.map (fun e => e.path) =
        column.subcolumns.map (fun e => e.path) := by
      simp only [insert_defaults, List.map_map]
      apply List.map_congr_left
      intro e _
      simp only [Function.comp]
      split <;> rfl
    rw [hp]
    exact hcons.1

/-- The single-row call once the parse result is known and has as many values as paths. -/
theorem parse_json_to_variant_of_result {Field : Type} (parser : JSONDataParser Field)
    (is_nothing : Field → Bool) (column : ColumnObject Field) (src : String)
    (r : ParseResult Field)
    (hres : (if src.length > 0 then parser.parse src else some ⟨[], []⟩) = some r)
    (hpair : r.paths.length = r.values.length) :
    parse_json_to_variant parser is_nothing column src =
      match (insert_values is_nothing column.size (List.zip r.paths r.values) []
        column).outcome with
      | Outcome.returned _ =>
        ⟨(insert_defaults
            (insert_values is_nothing column.size (List.zip r.paths r.values) []
              column).paths_set
            (insert_values is_nothing column.size (List.zip r.paths r.values) []
              column).column).incr_num_rows,
          Outcome.returned ()⟩
      | Outcome.threw e =>
        ⟨(insert_values is_nothing column.size (List.zip r.paths r.values) [] column).column,
          Outcome.threw e⟩
      | Outcome.assert_failed =>
        ⟨(insert_values is_nothing column.size (List.zip r.paths r.values) [] column).column,
          Outcome.assert_failed⟩ := by
  unfold parse_json_to_variant
  rw [hres]
  simp only [hpair, if_true]

/-- A column whose subcolumns all have `num_rows` values and distinct paths is consistent
before anything has been inserted. -/
theorem rows_consistent_on_entry {Field : Type} (column : ColumnObject Field)
    (hsize : ∀ e ∈ column.subcolumns, e.data.size = column.num_rows)
    (hkeys : (column.subcolumns.map (fun e => e.path)).Nodup) :
    rows_consistent column.size [] column :=
  ⟨hkeys, fun e he => by simpa [ColumnObject.size] using hsize e he⟩

/-- Two entries with values that are not of 'nothing' type under the same path make the list
of live paths hold that path twice. -/
theorem live_paths_not_nodup {Field : Type} (is_nothing : Field → Bool)
    (l : List (PathInData × Field)) :
    ∀ (i j : Nat) (p q : PathInData) (v w : Field), i < j →
      l[i]? = some (p, v) → l[j]? = some (q, w) → p.get_path = q.get_path →
      is_nothing v = false → is_nothing w = false →
      ¬ (live_paths is_nothing l).Nodup := by
  induction l with
  | nil => intro i j p q v w _ hi; simp at hi
  | cons hd rest ih =>
    intro i j p q v w hij hi hj hpq hv hw hnodup
    cases j with
    | zero => omega
    | succ j1 =>
      simp only [List.getElem?_cons_succ] at hj
      cases i with
      | zero =>
        simp only [List.getElem?_cons_zero, Option.some.injEq] at hi
        subst hi
        have hl : live_paths is_nothing ((p, v) :: rest) =
            p.get_path :: live_paths is_nothing rest := by
          simp [live_paths, List.filter_cons, hv]
        rw [hl, List.nodup_cons] at hnodup
        apply hnodup.1
        rw [hpq]
        simp only [live_paths, List.mem_map, List.mem_filter]
        exact ⟨(q, w), ⟨List.getElem?_mem hj, by simp [hw]⟩, rfl⟩
      | succ i1 =>
        simp only [List.getElem?_cons_succ] at hi
        apply ih i1 j1 p q v w (by omega) hi hj hpq hv hw
        obtain ⟨path, value⟩ := hd
        by_cases hvalue : is_nothing value = true
        · have hl : live_paths is_nothing ((path, value) :: rest) =
              live_paths is_nothing rest := by
            simp [live_paths, List.filter_cons, hvalue]
          rw [hl] at hnodup
          exact hnodup
        · have hl : live_paths is_nothing ((path, value) :: rest) =
              path.get_path :: live_paths is_nothing rest := by
            simp [live_paths, List.filter_cons, hvalue]
          rw [hl, List.nodup_cons] at hnodup
          exact hnodup.2

/-! ### The claims about the row-count invariant and ambiguous paths -/

/-- C14: the single-row function keeps the row-count invariant.  If on entry every subcolumn
has `num_rows` values (each path having one subcolumn), then the assertion
`subcolumn->size() == num_rows` holds at every insertion, whatever the parse result: the loop
never ends in a failed assertion, and the call can only do so for a parse result with
different numbers of paths and values.  On normal return every subcolumn has `num_rows + 1`
values, the row count is `num_rows + 1`, and each path still has one subcolumn. -/
theorem parse_json_to_variant_keeps_row_count {Field : Type} (parser : JSONDataParser Field)
    (is_nothing : Field → Bool) (column : ColumnObject Field) (src : String)
    (hsize : ∀ e ∈ column.subcolumns, e.data.size = column.num_rows)
    (hkeys : (column.subcolumns.map (fun e => e.path)).Nodup) :
    (∀ l : List (PathInData × Field),
      (insert_values is_nothing column.size l [] column).outcome ≠ Outcome.assert_failed) ∧
    ((parse_json_to_variant parser is_nothing column src).outcome = Outcome.assert_failed →
      ∃ r, parser.parse src = some r ∧ r.paths.length ≠ r.values.length) ∧
    ((parse_json_to_variant parser is_nothing column src).outcome = Outcome.returned () →
      (∀ e ∈ (parse_json_to_variant parser is_nothing column src).column.subcolumns,
        e.data.size = column.num_rows + 1) ∧
      (parse_json_to_variant parser is_nothing column src).column.num_rows =
        column.num_rows + 1 ∧
      ((parse_json_to_variant parser is_nothing column src).column.subcolumns.map
        (fun e => e.path)).Nodup) := by
  have hc := rows_consistent_on_entry column hsize hkeys
  have hloop : ∀ l : List (PathInData × Field),
      (insert_values is_nothing column.size l [] column).outcome ≠ Outcome.assert_failed := by
    intro l
    rcases insert_values_consistent is_nothing column.size l [] column hc with
      ⟨_, h, _⟩ | ⟨_, p, h⟩ <;> rw [h] <;> exact fun h2 => Outcome.noConfusion h2
  refine ⟨hloop, ?_, ?_⟩
  · intro hfail
    cases hres : (if src.length > 0 then parser.parse src else some ⟨[], []⟩) with
    | none =>
      unfold parse_json_to_variant at hfail
      rw [hres] at hfail
      exact Outcome.noConfusion hfail
    | some r =>
      by_cases hpair : r.paths.length = r.values.length
      · rw [parse_json_to_variant_of_result parser is_nothing column src r hres hpair] at hfail
        split at hfail
        · exact Outcome.noConfusion hfail
        · exact Outcome.noConfusion hfail
        · rename_i heq
          exact absurd heq (hloop _)
      · by_cases hlen : src.length > 0
        · rw [if_pos hlen] at hres
          exact ⟨r, hres, hpair⟩
        · rw [if_neg hlen] at hres
          simp only [Option.some.injEq] at hres
          rw [← hres] at hpair
          exact absurd rfl hpair
  · intro hret
    cases hres : (if src.length > 0 then parser.parse src else some ⟨[], []⟩) with
    | none =>
      unfold parse_json_to_variant at hret
      rw [hres] at hret
      exact Outcome.noConfusion hret
    | some r =>
      by_cases hpair : r.paths.length = r.values.length
      · rw [parse_json_to_variant_of_result parser is_nothing column src r hres hpair]
          at hret ⊢
        rcases insert_values_consistent is_nothing column.size (List.zip r.paths r.values) []
          column hc with ⟨_, h, hfinal⟩ | ⟨_, p, h⟩
        · rw [h]
          obtain ⟨h1, h2⟩ := insert_defaults_consistent column.size _ _ hfinal
          refine ⟨h1, ?_, h2⟩
          simp only [ColumnObject.incr_num_rows, insert_defaults, insert_values_num_rows]
        · rw [h] at hret
          exact Outcome.noConfusion hret
      · unfold parse_json_to_variant at hret
        rw [hres] at hret
        simp only [hpair, if_false] at hret
        exact Outcome.noConfusion hret

/-- C14 at the column of one row with the subcolumn `b` and the row `{"a":1}`: the call
returns, `b` and the new subcolumn `a` have two values each, and the row count is 2. -/
theorem parse_json_to_variant_keeps_row_count_witness :
    (∀ e ∈ column_b.subcolumns, e.data.size = column_b.num_rows) ∧
    (column_b.subcolumns.map (fun e => e.path)).Nodup ∧
    parse_json_to_variant sample_json example_is_nothing column_b "\x7b\"a\":1\x7d" =
      ⟨⟨[⟨⟨"b"⟩, ⟨[some 5, none]⟩⟩, ⟨⟨"a"⟩, ⟨[none, some 1]⟩⟩], 2⟩, Outcome.returned ()⟩ ∧
    ((∀ e ∈ (parse_json_to_variant sample_json example_is_nothing column_b
        "\x7b\"a\":1\x7d").column.subcolumns, e.data.size = column_b.num_rows + 1) ∧
      (parse_json_to_variant sample_json example_is_nothing column_b
        "\x7b\"a\":1\x7d").column.num_rows = column_b.num_rows + 1 ∧
      ((parse_json_to_variant sample_json example_is_nothing column_b
        "\x7b\"a\":1\x7d").column.subcolumns.map (fun e => e.path)).Nodup) :=
  ⟨by decide, by decide, rfl,
    (parse_json_to_variant_keeps_row_count sample_json example_is_nothing column_b
      "\x7b\"a\":1\x7d" (by decide) (by decide)).2.2 (by decide)⟩

/-- C16, the code at the failing input.  The row `{"a":1,"a":2}` has two entries with values
under the path `a`.  On the empty column the call raises "Object has ambiguous path a", but
the value inserted before the throw is not taken back: it leaves the subcolumn `a` with one
value while the row count is 0.  Called again on the column so left, with the same ambiguous
object, it does not raise: its own assertion `subcolumn->size() == num_rows` fails at the
first entry.  The batch function makes these two calls for a batch of two such rows. -/
theorem ambiguous_object_fails_assertion :
    (sample_json.parse ambiguous_row).map (fun r => (r.paths, r.values)) =
      some ([⟨"a"⟩, ⟨"a"⟩], [1, 2]) ∧
    example_is_nothing 1 = false ∧ example_is_nothing 2 = false ∧
    (parse_json_to_variant sample_json example_is_nothing empty_column ambiguous_row).outcome =
      Outcome.threw ⟨ErrorCode.INVALID_ARGUMENT, "Object has ambiguous path a"⟩ ∧
    (parse_json_to_variant sample_json example_is_nothing empty_column ambiguous_row).column =
      ⟨[⟨⟨"a"⟩, ⟨[some 1]⟩⟩], 0⟩ ∧
    (parse_json_to_variant sample_json example_is_nothing ⟨[⟨⟨"a"⟩, ⟨[some 1]⟩⟩], 0⟩
      ambiguous_row).outcome = Outcome.assert_failed ∧
    (parse_json_to_variant_batch sample_json example_is_nothing empty_column
      [ambiguous_row, ambiguous_row] (1 / 10) [1, 1]).result = Outcome.assert_failed := by
  refine ⟨by decide, rfl, rfl, by decide, by decide, by decide, ?_⟩
  rw [batch_eq_when_pos _ _ _ _ _ _ (by norm_num)]
  decide

/-- Called on a column whose subcolumns all have `num_rows` values (each path having one
subcolumn) with a parse result of as many values as paths, the single-row function rejects
ambiguous objects.  If two entries whose values are not of 'nothing' type carry the
same path, it raises INVALID_ARGUMENT "Object has ambiguous path" and leaves the row count as
it was.  Entries whose value is of 'nothing' type are skipped before the duplicate check: if
the paths of the other entries are pairwise different the call returns, and the call does the
same as for the parse result without the 'nothing' entries. -/
theorem ambiguous_object_rejected {Field : Type} (parser : JSONDataParser Field)
    (is_nothing : Field → Bool) (column : ColumnObject Field) (src : String)
    (r : ParseResult Field)
    (hsize : ∀ e ∈ column.subcolumns, e.data.size = column.num_rows)
    (hkeys : (column.subcolumns.map (fun e => e.path)).Nodup)
    (hlen : src.length > 0) (hparse : parser.parse src = some r)
    (hpair : r.paths.length = r.values.length) :
    ((∃ (i j : Nat) (p q : PathInData) (v w : Field), i < j ∧
        r.paths[i]? = some p ∧ r.values[i]? = some v ∧
        r.paths[j]? = some q ∧ r.values[j]? = some w ∧
        p.get_path = q.get_path ∧ is_nothing v = false ∧ is_nothing w = false) →
      (∃ k, (parse_json_to_variant parser is_nothing column src).outcome =
        Outcome.threw ⟨ErrorCode.INVALID_ARGUMENT, "Object has ambiguous path " ++ k⟩) ∧
      (parse_json_to_variant parser is_nothing column src).column.num_rows =
        column.num_rows) ∧
    ((live_paths is_nothing (List.zip r.paths r.values)).Nodup →
      (parse_json_to_variant parser is_nothing column src).outcome = Outcome.returned ()) ∧
    (∀ other : JSONDataParser Field,
      other.parse src =
        some ⟨((List.zip r.paths r.values).filter (fun pv => !is_nothing pv.2)).map Prod.fst,
          ((List.zip r.paths r.values).filter (fun pv => !is_nothing pv.2)).map Prod.snd⟩ →
      parse_json_to_variant other is_nothing column src =
        parse_json_to_variant parser is_nothing column src) := by
  have hc := rows_consistent_on_entry column hsize hkeys
  have hres : (if src.length > 0 then parser.parse src else some ⟨[], []⟩) = some r := by
    rw [if_pos hlen, hparse]
  have hcall := parse_json_to_variant_of_result parser is_nothing column src r hres hpair
  refine ⟨?_, ?_, ?_⟩
  · rintro ⟨i, j, p, q, v, w, hij, hpi, hvi, hpj, hvj, hpq, hv, hw⟩
    have hzi : (List.zip r.paths r.values)[i]? = some (p, v) :=
      List.getElem?_zip_eq_some.mpr ⟨hpi, hvi⟩
    have hzj : (List.zip r.paths r.values)[j]? = some (q, w) :=
      List.getElem?_zip_eq_some.mpr ⟨hpj, hvj⟩
    have hdup := live_paths_not_nodup is_nothing _ i j p q v w hij hzi hzj hpq hv hw
    have hthrew : ∃ k, (parse_json_to_variant parser is_nothing column src).outcome =
        Outcome.threw ⟨ErrorCode.INVALID_ARGUMENT, "Object has ambiguous path " ++ k⟩ := by
      rcases insert_values_consistent is_nothing column.size (List.zip r.paths r.values) []
        column hc with ⟨⟨h1, _⟩, _⟩ | ⟨_, k, h⟩
      · exact absurd h1 hdup
      · refine ⟨k, ?_⟩
        rw [hcall, h]
    refine ⟨hthrew, ?_⟩
    obtain ⟨k, hk⟩ := hthrew
    have hnum := parse_json_to_variant_num_rows parser is_nothing column src
    rw [hk] at hnum
    simpa [Outcome.is_returned] using hnum
  · intro hnodup
    rcases insert_values_consistent is_nothing column.size (List.zip r.paths r.values) []
      column hc with ⟨_, h, _⟩ | ⟨hnot, _⟩
    · rw [hcall, h]
    · exact absurd ⟨hnodup, fun k _ hk => by simp at hk⟩ hnot
  · intro other hother
    have hres2 : (if src.length > 0 then other.parse src else some ⟨[], []⟩) =
        some ⟨((List.zip r.paths r.values).filter (fun pv => !is_nothing pv.2)).map Prod.fst,
          ((List.zip r.paths r.values).filter (fun pv => !is_nothing pv.2)).map Prod.snd⟩ := by
      rw [if_pos hlen, hother]
    rw [hcall, parse_json_to_variant_of_result other is_nothing column src _ hres2 (by simp)]
    simp only
    rw [← List.zip_of_prod rfl rfl, ← insert_values_skips_nothing]

/-- Rejection at the column of one row with the subcolumn `b` and the row
`{"a":1,"a":2}`: the call raises "Object has ambiguous path a" and the row count stays 1.
With nulls of 'nothing' type, `{"a":null,"a":2}` is not rejected, and
`{"a":1,"b":null,"a":2}` is. -/
theorem ambiguous_object_rejected_witness :
    (∀ e ∈ column_b.subcolumns, e.data.size = column_b.num_rows) ∧
    (column_b.subcolumns.map (fun e => e.path)).Nodup ∧
    ambiguous_row.length > 0 ∧
    sample_json.parse ambiguous_row = some ⟨[⟨"a"⟩, ⟨"a"⟩], [1, 2]⟩ ∧
    (parse_json_to_variant sample_json example_is_nothing column_b ambiguous_row).outcome =
      Outcome.threw ⟨ErrorCode.INVALID_ARGUMENT, "Object has ambiguous path a"⟩ ∧
    (parse_json_to_variant json_with_nulls null_is_nothing column_b
      "\x7b\"a\":null,\"a\":2\x7d").outcome = Outcome.returned () ∧
    (parse_json_to_variant json_with_nulls null_is_nothing column_b
      "\x7b\"a\":1,\"b\":null,\"a\":2\x7d").outcome =
      Outcome.threw ⟨ErrorCode.INVALID_ARGUMENT, "Object has ambiguous path a"⟩ ∧
    ((∃ k, (parse_json_to_variant sample_json example_is_nothing column_b
        ambiguous_row).outcome =
        Outcome.threw ⟨ErrorCode.INVALID_ARGUMENT, "Object has ambiguous path " ++ k⟩) ∧
      (parse_json_to_variant sample_json example_is_nothing column_b
        ambiguous_row).column.num_rows = column_b.num_rows) :=
  ⟨by decide, by decide, by decide, rfl, by decide, by decide, by decide,
    (ambiguous_object_rejected sample_json example_is_nothing column_b ambiguous_row
      ⟨[⟨"a"⟩, ⟨"a"⟩], [1, 2]⟩ (by decide) (by decide) (by decide) rfl rfl).1
      ⟨0, 1, ⟨"a"⟩, ⟨"a"⟩, 1, 2, by decide, rfl, rfl, rfl, rfl, rfl, rfl, rfl⟩⟩

/-! ### Examples for `DataTypeIPv6SerDe` and `SimpleObjectPool` -/

namespace serde

/-- The IPv6 writer on a recording buffer: at nesting level 2 with a wrapper of length 1 the
buffer receives wrapper, value, wrapper; with room for one push only, the second push fails,
the result is the internal error and the third push is not made; at nesting level 1 the
buffer receives the value alone. -/
theorem write_column_to_mysql_examples :
    (DataTypeIPv6SerDe.mk 2)._write_column_to_mysql (recording_buffer true 3) [41, 42] [] 1
        false ⟨"\"", 1⟩ =
      (Status.OK, [Push.string "\"" 1, Push.ipv6 42, Push.string "\"" 1]) ∧
    (DataTypeIPv6SerDe.mk 2)._write_column_to_mysql (recording_buffer false 1) [41, 42] [] 1
        true ⟨"\"", 1⟩ =
      (Status.InternalError "pack mysql buffer failed.", [Push.string "\"" 1]) ∧
    (DataTypeIPv6SerDe.mk 1)._write_column_to_mysql (recording_buffer true 3) [41, 42] [] 1
        false ⟨"\"", 1⟩ =
      (Status.OK, [Push.ipv6 42]) ∧
    (DataTypeIPv6SerDe.mk 2)._write_column_to_mysql (recording_buffer true 3) [41, 42] [] 0
        false ⟨"\"", 0⟩ =
      (Status.OK, [Push.ipv6 41]) := by
  decide

end serde

/-- A pool in use: two objects are created, the first is released and handed out again by the
next `get` without a factory call, and a third `get` then creates a new object. -/
theorem PoolUse_run_example :
    PoolUse.run [PoolOp.get, PoolOp.get, PoolOp.release 1] = ⟨⟨[0]⟩, [⟨1⟩], ⟨2⟩⟩ ∧
    PoolUse.run [PoolOp.get, PoolOp.get, PoolOp.release 1, PoolOp.get] =
      ⟨⟨[]⟩, [⟨0⟩, ⟨1⟩], ⟨2⟩⟩ ∧
    PoolUse.run [PoolOp.get, PoolOp.get, PoolOp.release 1, PoolOp.get, PoolOp.get] =
      ⟨⟨[]⟩, [⟨2⟩, ⟨0⟩, ⟨1⟩], ⟨3⟩⟩ := by
  decide

end vectorized

/-! ### The writer registry -/

namespace stream_load

/-- For example, with the layout `<tablet_id, index_id>` that the comment on `TabletID`
(vtablet_sink_v2.h:97) gives, the tablet keys `(1, 1, 100)` and `(2, 1, 100)` have the same
registry key, and a registry that holds a writer for the one holds it for the other. -/
theorem documented_TabletID_layout_example :
    (∀ k : TabletKey, k.in_range →
      TabletID_in_range ((fun k : TabletKey => ((k.tablet_id, k.index_id) : TabletID)) k)) ∧
    (TabletKey.mk 1 1 100).partition_id ≠ (TabletKey.mk 2 1 100).partition_id ∧
    (fun k : TabletKey => ((k.tablet_id, k.index_id) : TabletID)) (TabletKey.mk 1 1 100) =
      (fun k : TabletKey => ((k.tablet_id, k.index_id) : TabletID)) (TabletKey.mk 2 1 100) ∧
    unordered_map.find ([((100, 1), DeltaWriter.mk 7)] : DeltaWriterForTablet)
      ((fun k : TabletKey => ((k.tablet_id, k.index_id) : TabletID)) (TabletKey.mk 2 1 100)) =
        some (DeltaWriter.mk 7) := by
  refine ⟨?_, by decide, rfl, by decide⟩
  intro k hk
  exact ⟨hk.2.2, hk.2.1⟩

end stream_load

namespace vectorized

/-! ### Ambiguous objects with assertions compiled out -/

/-- A subcolumn that has just been added is there. -/
theorem has_subcolumn_add_sub_column {Field : Type} (column : ColumnObject Field)
    (path : PathInData) (num_rows : Nat) :
    (column.add_sub_column path num_rows).has_subcolumn path = true := by
  rw [has_subcolumn_iff]
  simp [ColumnObject.add_sub_column]

/-- With the assertion compiled out the loop rejects ambiguous objects on every column: if a
value that is not of 'nothing' type comes under a path already inserted, or two such values
come under the same path, the loop throws "Object has ambiguous path". -/
theorem insert_values_unchecked_rejects {Field : Type} (is_nothing : Field → Bool)
    (num_rows : Nat) (l : List (PathInData × Field)) :
    ∀ (paths_set : List String) (column : ColumnObject Field),
      ¬ ((live_paths is_nothing l).Nodup ∧ (∀ k ∈ live_paths is_nothing l, k ∉ paths_set)) →
      ∃ p, (insert_values_unchecked is_nothing num_rows l paths_set column).outcome =
        Outcome.threw ⟨ErrorCode.INVALID_ARGUMENT, "Object has ambiguous path " ++ p⟩ := by
  induction l with
  | nil =>
    intro paths_set column h
    exact absurd ⟨by simp [live_paths], by simp [live_paths]⟩ h
  | cons pv rest ih =>
    intro paths_set column h
    obtain ⟨path, value⟩ := pv
    by_cases hvalue : is_nothing value = true
    · have hl : live_paths is_nothing ((path, value) :: rest) = live_paths is_nothing rest := by
        simp [live_paths, List.filter_cons, hvalue]
      rw [hl] at h
      simp only [insert_values_unchecked, hvalue, if_true]
      exact ih paths_set column h
    · have hv : is_nothing value = false := by simpa using hvalue
      have hl : live_paths is_nothing ((path, value) :: rest) =
          path.get_path :: live_paths is_nothing rest := by
        simp [live_paths, List.filter_cons, hvalue]
      rw [hl] at h
      by_cases hpath : path.get_path ∈ paths_set
      · refine ⟨path.get_path, ?_⟩
        simp only [insert_values_unchecked, hv, hpath, if_true, if_false, Bool.false_eq_true]
      · have hrest : ¬ ((live_paths is_nothing rest).Nodup ∧
            (∀ k ∈ live_paths is_nothing rest, k ∉ path.get_path :: paths_set)) := by
          rintro ⟨h1, h2⟩
          apply h
          refine ⟨?_, ?_⟩
          · rw [List.nodup_cons]
            exact ⟨fun hmem => h2 _ hmem (List.mem_cons_self _ _), h1⟩
          · intro k hk
            rcases List.mem_cons.mp hk with hk | hk
            · rw [hk]; exact hpath
            · exact fun hin => h2 k hk (List.mem_cons_of_mem _ hin)
        have hhas : (if column.has_subcolumn path then column
            else column.add_sub_column path num_rows).has_subcolumn path = true := by
          by_cases hc : column.has_subcolumn path = true
          · rw [if_pos hc]; exact hc
          · rw [if_neg hc]; exact has_subcolumn_add_sub_column column path num_rows
        obtain ⟨e, _, _, hget⟩ := get_subcolumn_of_has _ path hhas
        simp only [insert_values_unchecked, hv, hpath, hget, if_false, Bool.false_eq_true]
        exact ih _ _ hrest

/-- With the assertion compiled out, the loop on the column that a rejected ambiguous row
left raises for the next ambiguous row, and leaves the subcolumn `a` with two values while the
row count is 0. -/
theorem insert_values_unchecked_example :
    (insert_values_unchecked example_is_nothing 0 [(⟨"a"⟩, 1), (⟨"a"⟩, 2)] []
      ⟨[⟨⟨"a"⟩, ⟨[some 1]⟩⟩], 0⟩).outcome =
      Outcome.threw ⟨ErrorCode.INVALID_ARGUMENT, "Object has ambiguous path a"⟩ ∧
    (insert_values_unchecked example_is_nothing 0 [(⟨"a"⟩, 1), (⟨"a"⟩, 2)] []
      ⟨[⟨⟨"a"⟩, ⟨[some 1]⟩⟩], 0⟩).column = ⟨[⟨⟨"a"⟩, ⟨[some 1, some 1]⟩⟩], 0⟩ := by
  decide

end vectorized

end doris
